import Mathlib

/-
  Verification development for the CLIProxyAPI gateway core.

  Shallow embedding of:
  - internal/runtime/executor/cross_provider_executor.go (cross-provider executor)
  - internal/watcher/watcher.go (credential snapshot synthesis and reconciliation)
  - internal/translator/claude/openai/responses/claude_openai-responses_request.go
  - internal/api/modules/amp/amp.go (management-route middleware)

  Library calls that live outside the repository (sdk translator functions,
  sjson/gjson raw-byte manipulation, the HTTP client, net parsing) are modelled
  as explicit parameters; everything else is translated from the source.
-/

namespace CLIProxy

/-! ## Shared: Go `map[string]string` attribute maps, string helpers -/

/-- Attribute map carried by a credential (Go `map[string]string`),
modelled as an association list with unique keys (first hit wins on lookup). -/
abbrev AttrMap := List (String × String)

/-- Go map read `attrs[k]`: returns the zero value `""` when the key is absent. -/
def attrGet (attrs : AttrMap) (k : String) : String :=
  match attrs.find? (fun p => p.fst == k) with
  | some p => p.snd
  | none => ""

/-- Optional lookup in an attribute map (distinguishes a missing key from `""`). -/
def attrGet? (attrs : AttrMap) (k : String) : Option String :=
  (attrs.find? (fun p => p.fst == k)).map (·.snd)

/-- Go `strings.TrimSpace`: strips leading and trailing whitespace.  Written
by structural recursion on the character list so that it evaluates. -/
def goTrim (s : String) : String :=
  ⟨((s.data.dropWhile Char.isWhitespace).reverse.dropWhile Char.isWhitespace).reverse⟩

/-- Go `strings.ToLower` (ASCII case used by the sources). -/
def goToLower (s : String) : String :=
  ⟨s.data.map Char.toLower⟩

/-- Go `strings.TrimSuffix s suf`: drops one trailing occurrence of `suf`. -/
def goTrimSuffix (s suf : String) : String :=
  if suf.data.isSuffixOf s.data then ⟨s.data.take (s.data.length - suf.data.length)⟩ else s

/-- Go `strings.EqualFold` restricted to the simple case used by the sources:
case-insensitive string comparison. -/
def eqFold (a b : String) : Bool :=
  goToLower a == goToLower b

namespace Exec

/-! ## Cross-provider executor (cross_provider_executor.go) -/

/-- The slice of `cliproxyauth.Auth` the executor reads: a possibly-nil
attributes map (the pointer itself being nil is modelled by `Option Auth`). -/
structure Auth where
  id : String := ""
  label : String := ""
  attributes : Option AttrMap := none
  deriving Repr, DecidableEq

/-- `crossProviderCreds`: extracts trimmed `api_key` and `base_url` from the
credential attributes, with `""` for nil auth / nil map / missing key. -/
def crossProviderCreds : Option Auth → String × String
  | none => ("", "")
  | some a =>
    match a.attributes with
    | none => ("", "")
    | some attrs => (goTrim (attrGet attrs "api_key"), goTrim (attrGet attrs "base_url"))

/-- `resolveUpstreamModel`: the upstream model name from `attributes["model_name"]`,
or `""` when absent/blank. -/
def resolveUpstreamModel (modelAlias : String) (auth : Option Auth) : String :=
  if modelAlias = "" then ""
  else
    match auth with
    | none => ""
    | some a =>
      match a.attributes with
      | none => ""
      | some attrs =>
        let modelName := goTrim (attrGet attrs "model_name")
        if modelName ≠ "" then modelName else ""

/-- An upstream HTTP POST issued by the executor. -/
structure UpstreamRequest where
  url : String
  body : String
  stream : Bool
  deriving Repr, DecidableEq

/-- Result of `httpClient.Do`: transport error, or a response with a status
code, a full body, and (for SSE) the scanner lines of the body. -/
inductive UpstreamResult where
  | httpError (msg : String)
  | response (status : Nat) (body : String) (lines : List String)
  deriving Repr, DecidableEq

/-- Outcome of a non-streaming executor operation.  The `unsupported provider
type` error of the dispatch switch is kept as its own constructor, mirroring
the distinct `fmt.Errorf` value produced there. -/
inductive ExecOutcome where
  | ok (payload : String)
  | errStatus (code : Nat) (msg : String)
  | errUnsupported (providerType : String)
  | errOther (msg : String)
  deriving Repr, DecidableEq

/-- The message carried by an outcome (`statusErr.msg` / `error.Error()`). -/
def ExecOutcome.message : ExecOutcome → String
  | .ok _ => ""
  | .errStatus _ msg => msg
  | .errUnsupported pt => "cross-provider executor: unsupported provider type: " ++ pt
  | .errOther msg => msg

/-- Outcome of `ExecuteStream`: either the translated chunk sequence or an
error returned before the channel is opened. -/
inductive StreamOutcome where
  | ok (chunks : List String)
  | errStatus (code : Nat) (msg : String)
  | errUnsupported (providerType : String)
  | errOther (msg : String)
  deriving Repr, DecidableEq

/-- External collaborators of the executor: the sdk translator registry,
sjson mutations on raw bytes, payload config, the HTTP transport and the
tokenizer.  All are parameters of the model; the executor's own control flow
is translated from the source. -/
structure ExecEnv where
  translateRequest : String → String → Bool → String
  setModel : String → String → String
  setStreamTrue : String → String
  systemLiftRaw : String → String
  sanitizeNamesRaw : String → String
  payloadConfig : String → String → String
  translateNonStream : String → String → String → String
  translateStreamChunk : String → List String
  upstream : UpstreamRequest → UpstreamResult
  tokenize : String → Except String Nat
  translateTokenCount : Nat → String

/-- Request body preparation shared by `executeWithClaude` (stream=false) and
`executeStreamWithClaude` (stream=true): translate, apply the model alias
override, (for streams) force `"stream": true`, lift system messages,
sanitize tool names, apply payload config. -/
def prepareClaudeBody (env : ExecEnv) (auth : Option Auth)
    (model payload : String) (stream : Bool) : String :=
  let body := env.translateRequest model payload stream
  let body :=
    match resolveUpstreamModel model auth with
    | "" => body
    | modelOverride => env.setModel body modelOverride
  let body := if stream then env.setStreamTrue body else body
  let body := env.systemLiftRaw body
  let body := env.sanitizeNamesRaw body
  env.payloadConfig model body

/-- The POST the executor issues: `TrimSuffix(baseURL, "/") + "/v1/messages"`. -/
def claudeUpstreamRequest (env : ExecEnv) (auth : Option Auth)
    (model payload : String) (stream : Bool) : UpstreamRequest :=
  { url := goTrimSuffix (crossProviderCreds auth).2 "/" ++ "/v1/messages"
    body := prepareClaudeBody env auth model payload stream
    stream := stream }

/-- `executeWithClaude`: non-streaming Claude-backend path.  Returns the
outcome together with the list of upstream requests actually issued. -/
def executeWithClaude (env : ExecEnv) (auth : Option Auth)
    (model payload : String) : ExecOutcome × List UpstreamRequest :=
  let apiKey := (crossProviderCreds auth).1
  let baseURL := (crossProviderCreds auth).2
  if baseURL = "" then
    (.errStatus 401 "cross-provider executor: missing base URL", [])
  else if apiKey = "" then
    (.errStatus 401 "cross-provider executor: missing API key", [])
  else
    let req := claudeUpstreamRequest env auth model payload false
    match env.upstream req with
    | .httpError e => (.errOther e, [req])
    | .response status respBody _ =>
      if status < 200 ∨ 300 ≤ status then
        (.errStatus status respBody, [req])
      else
        (.ok (env.translateNonStream model payload respBody), [req])

/-- `executeStreamWithClaude`: streaming Claude-backend path.  Credential and
status checks happen before the channel is opened; on success every scanner
line is translated into zero or more client-dialect chunks, in order. -/
def executeStreamWithClaude (env : ExecEnv) (auth : Option Auth)
    (model payload : String) : StreamOutcome × List UpstreamRequest :=
  let apiKey := (crossProviderCreds auth).1
  let baseURL := (crossProviderCreds auth).2
  if baseURL = "" then
    (.errStatus 401 "cross-provider executor: missing base URL", [])
  else if apiKey = "" then
    (.errStatus 401 "cross-provider executor: missing API key", [])
  else
    let req := claudeUpstreamRequest env auth model payload true
    match env.upstream req with
    | .httpError e => (.errOther e, [req])
    | .response status respBody lines =>
      if status < 200 ∨ 300 ≤ status then
        (.errStatus status respBody, [req])
      else
        (.ok (lines.flatMap env.translateStreamChunk), [req])

/-- `countTokensWithClaude`: translate, apply alias override, lift system
messages, then tokenize locally.  Never contacts the upstream. -/
def countTokensWithClaude (env : ExecEnv) (auth : Option Auth)
    (model payload : String) : ExecOutcome × List UpstreamRequest :=
  let body := env.translateRequest model payload false
  let body :=
    match resolveUpstreamModel model auth with
    | "" => body
    | modelOverride => env.setModel body modelOverride
  let body := env.systemLiftRaw body
  match env.tokenize body with
  | .error e => (.errOther ("cross-provider executor: token counting failed: " ++ e), [])
  | .ok n => (.ok (env.translateTokenCount n), [])

/-- The executor value: `NewCrossProviderExecutor` lower-cases and trims the
configured provider type. -/
structure CrossProviderExecutor where
  providerType : String
  deriving Repr, DecidableEq

def NewCrossProviderExecutor (providerType : String) : CrossProviderExecutor :=
  ⟨goToLower (goTrim providerType)⟩

/-- `Execute`: dispatch on the provider type. -/
def CrossProviderExecutor.Execute (e : CrossProviderExecutor) (env : ExecEnv)
    (auth : Option Auth) (model payload : String) : ExecOutcome × List UpstreamRequest :=
  if e.providerType = "claude" then executeWithClaude env auth model payload
  else (.errUnsupported e.providerType, [])

/-- `ExecuteStream`: dispatch on the provider type. -/
def CrossProviderExecutor.ExecuteStream (e : CrossProviderExecutor) (env : ExecEnv)
    (auth : Option Auth) (model payload : String) : StreamOutcome × List UpstreamRequest :=
  if e.providerType = "claude" then executeStreamWithClaude env auth model payload
  else (.errUnsupported e.providerType, [])

/-- `CountTokens`: dispatch on the provider type. -/
def CrossProviderExecutor.CountTokens (e : CrossProviderExecutor) (env : ExecEnv)
    (auth : Option Auth) (model payload : String) : ExecOutcome × List UpstreamRequest :=
  if e.providerType = "claude" then countTokensWithClaude env auth model payload
  else (.errUnsupported e.providerType, [])

end Exec

end CLIProxy

namespace CLIProxy.Exec

/-! ## Witness fixtures for the executor claims -/

/-- A concrete environment whose upstream always answers 404. -/
def witnessEnv : ExecEnv :=
  { translateRequest := fun _ payload _ => payload
    setModel := fun body _ => body
    setStreamTrue := fun body => body
    systemLiftRaw := fun body => body
    sanitizeNamesRaw := fun body => body
    payloadConfig := fun _ body => body
    translateNonStream := fun _ _ resp => resp
    translateStreamChunk := fun line => [line]
    upstream := fun _ => .response 404 "upstream error body" []
    tokenize := fun _ => .ok 1
    translateTokenCount := fun _ => "count" }

/-- A credential with an API key but no base URL. -/
def missingBaseAuth : Option Auth :=
  some { id := "a", label := "", attributes := some [("api_key", "k")] }

/-- A credential carrying both an API key and a base URL. -/
def fullCredsAuth : Option Auth :=
  some { id := "a", label := "",
         attributes := some [("api_key", "k"), ("base_url", "http://u")] }

end CLIProxy.Exec


namespace CLIProxy.Claude

/-! ## Claude-format message bodies, system-lifting (cross_provider_executor.go)
and tool-name sanitization -/

/-- One element of an array-valued message `content` as the lifter reads it:
its `type`, its `text` (`""` when absent) and, for tool_use blocks, its name. -/
structure MsgPart where
  ptype : String := ""
  text : String := ""
  name : String := ""
  deriving Repr, DecidableEq

/-- A message `content` value: a JSON string, an array of parts, or any other
JSON value (number, object, null, ...). -/
inductive MsgContent where
  | str (s : String)
  | arr (parts : List MsgPart)
  | other
  deriving Repr, DecidableEq

/-- A `messages[]` element as read by `extractSystemToTopLevel`. -/
structure Msg where
  role : String := ""
  content : MsgContent := .other
  deriving Repr, DecidableEq

/-- A `{type:"text", text: ...}` element of the top-level `system` array. -/
structure TextPart where
  text : String
  deriving Repr, DecidableEq

/-- A `tools[]` entry of a Claude Messages payload. -/
structure ToolDef where
  name : String := ""
  inputSchema : String := ""
  deriving Repr, DecidableEq

/-- A Claude Messages payload restricted to the fields the executor's
post-processing steps touch.  `messages = none` models an absent or
non-array `messages` field. -/
structure ClaudeBody where
  messages : Option (List Msg) := none
  system : Option (List TextPart) := none
  tools : List ToolDef := []
  deriving Repr, DecidableEq

/-- The text parts one system message contributes: non-empty string content
as a single part, or every `type == "text"` element of array content. -/
def systemPartsOfMsg (m : Msg) : List TextPart :=
  match m.content with
  | .str s => if s ≠ "" then [⟨s⟩] else []
  | .arr ps => ps.filterMap (fun p => if p.ptype = "text" then some ⟨p.text⟩ else none)
  | .other => []

/-- All system parts collected over a message array, in order. -/
def extractedSystemParts (msgs : List Msg) : List TextPart :=
  msgs.flatMap (fun m => if m.role = "system" then systemPartsOfMsg m else [])

/-- `extractSystemToTopLevel`: removes `role == "system"` messages and moves
their text into the top-level `system` parameter — but only when at least one
text part was collected; otherwise the body is returned unchanged. -/
def extractSystemToTopLevel (b : ClaudeBody) : ClaudeBody :=
  match b.messages with
  | none => b
  | some msgs =>
    let systemParts := extractedSystemParts msgs
    let filteredMessages := msgs.filter (fun m => ¬ m.role = "system")
    if systemParts ≠ [] then
      { b with system := some systemParts, messages := some filteredMessages }
    else b

/-- Modelled from the spec: the call sites in cross_provider_executor.go
(lines 124 and 234) invoke `sanitizeToolNames`, but its definition is not
among the provided sources.  Per the spec, the target's character class for
function/tool names admits letters, digits, underscore and hyphen (Azure
Foundry rejects e.g. `:`). -/
def allowedToolNameChar (c : Char) : Bool :=
  c.isAlpha || c.isDigit || c = '_' || c = '-'

/-- Modelled from the spec: a violating character is replaced with `_`. -/
def sanitizeChar (c : Char) : Char :=
  if allowedToolNameChar c then c else '_'

/-- Modelled from the spec: sanitize one function/tool name. -/
def sanitizeToolName (s : String) : String :=
  ⟨s.data.map sanitizeChar⟩

/-- Modelled from the spec: sanitize the name of a `tool_use` content block. -/
def sanitizeMsgPart (p : MsgPart) : MsgPart :=
  if p.ptype = "tool_use" then { p with name := sanitizeToolName p.name } else p

/-- Modelled from the spec: sanitize tool names inside one message. -/
def sanitizeMsg (m : Msg) : Msg :=
  match m.content with
  | .arr ps => { m with content := .arr (ps.map sanitizeMsgPart) }
  | _ => m

/-- Modelled from the spec: `sanitizeToolNames` replaces every out-of-class
character of every declared tool name and every `tool_use` block name in the
payload with `_`. -/
def sanitizeToolNames (b : ClaudeBody) : ClaudeBody :=
  { b with
    tools := b.tools.map (fun t => { t with name := sanitizeToolName t.name })
    messages := b.messages.map (fun msgs => msgs.map sanitizeMsg) }

/-- C2 counterexample fixture: a payload whose only message has role
`system` and empty string content. -/
def emptySystemBody : ClaudeBody :=
  { messages := some [{ role := "system", content := .str "" }] }

/-- C2 witness fixture: a system message followed by a user message. -/
def liftableBody : ClaudeBody :=
  { messages := some
      [{ role := "system", content := .str "be terse" },
       { role := "user", content := .str "hi" }] }

end CLIProxy.Claude


namespace CLIProxy.Amp

/-! ## Amp management routes (amp.go): localhost-only and no-CORS middleware -/

/-- The slice of an incoming request the middleware reads: the TCP
`RemoteAddr`, the HTTP method, and client-supplied headers (read by nothing
in this chain). -/
structure HttpRequest where
  remoteAddr : String
  method : String
  headers : List (String × String)
  deriving Repr, DecidableEq

/-- What a middleware chain does with a request. -/
inductive Outcome where
  | denied (status : Nat)
  | forwarded
  deriving Repr, DecidableEq

/-- A parsed `net.IP`, reduced to the one question asked of it. -/
structure GoIP where
  loopback : Bool
  deriving Repr, DecidableEq

/-- The `net` standard-library calls, as parameters of the model:
`SplitHostPort` (host on success, `none` on error) and `ParseIP`
(`none` when parsing fails). -/
structure NetEnv where
  splitHostPort : String → Option String
  parseIP : String → Option GoIP

/-- `localhostOnlyMiddleware`: extract the host from `RemoteAddr` (falling
back to the raw value on a split error), parse it, deny with 403 unless it
is a loopback IP.  Only `RemoteAddr` is consulted — never a header. -/
def localhostOnlyMiddleware (env : NetEnv) (req : HttpRequest) : Outcome :=
  let host := (env.splitHostPort req.remoteAddr).getD req.remoteAddr
  match env.parseIP host with
  | none => .denied 403
  | some ip => if ip.loopback then .forwarded else .denied 403

/-- `noCORSMiddleware`: strips CORS headers and aborts OPTIONS preflight
requests with 403. -/
def noCORSMiddleware (req : HttpRequest) : Outcome :=
  if req.method = "OPTIONS" then .denied 403 else .forwarded

/-- `registerManagementRoutes`: the chain applied to management requests —
`noCORSMiddleware` always, then `localhostOnlyMiddleware` when
`restrictToLocalhost` is set, then the proxy handler. -/
def managementOutcome (env : NetEnv) (restrictToLocalhost : Bool)
    (req : HttpRequest) : Outcome :=
  match noCORSMiddleware req with
  | .denied s => .denied s
  | .forwarded =>
    if restrictToLocalhost then localhostOnlyMiddleware env req else .forwarded

/-- Stated from the claim's words: the request's `RemoteAddr` parses to a
loopback IP address. -/
def remoteAddrIsLoopback (env : NetEnv) (addr : String) : Bool :=
  match env.parseIP ((env.splitHostPort addr).getD addr) with
  | some ip => ip.loopback
  | none => false

/-- Concrete network environment for witnesses: two known addresses, one
loopback and one not. -/
def witnessNetEnv : NetEnv :=
  { splitHostPort := fun s =>
      if s = "127.0.0.1:80" then some "127.0.0.1"
      else if s = "10.0.0.9:80" then some "10.0.0.9"
      else none
    parseIP := fun h =>
      if h = "127.0.0.1" then some { loopback := true }
      else if h = "10.0.0.9" then some { loopback := false }
      else none }

end CLIProxy.Amp


namespace CLIProxy.Watcher

/-! ## Watcher: credential synthesis and reconciliation (watcher.go) -/

/-- Structural `strings.Split` on a single-character separator. -/
def splitOnCharAux (sep : Char) : List Char → List Char → List String
  | [], acc => [⟨acc.reverse⟩]
  | c :: cs, acc =>
    if c = sep then ⟨acc.reverse⟩ :: splitOnCharAux sep cs []
    else splitOnCharAux sep cs (c :: acc)

/-- Go `strings.Split(s, ",")`. -/
def splitOnComma (s : String) : List String :=
  splitOnCharAux ',' s.data []

/-- Go `strings.Join(xs, sep)`. -/
def goJoin (sep : String) : List String → String
  | [] => ""
  | [x] => x
  | x :: xs => x ++ sep ++ goJoin sep xs

/-- Go map write `attrs[k] = v` on an association list. -/
def attrSet (attrs : AttrMap) (k v : String) : AttrMap :=
  if attrs.any (fun p => p.fst == k) then
    attrs.map (fun p => if p.fst == k then (k, v) else p)
  else attrs ++ [(k, v)]

/-- A metadata value (the auth-file JSON carries strings and booleans in the
fields the watcher copies). -/
inductive MetaVal where
  | s (v : String)
  | b (v : Bool)
  deriving Repr, DecidableEq

/-- Free-form credential metadata (Go `map[string]any`). -/
abbrev Metadata := List (String × MetaVal)

/-- Credential status (`coreauth.Status*`). -/
inductive AuthStatus where
  | active
  | disabled
  | cooling
  | exhausted
  deriving Repr, DecidableEq

/-- The shared refresh runtime created by `geminicli.NewSharedCredential`
for a multi-project Gemini OAuth file. -/
structure SharedCred where
  parentId : String
  email : String
  projects : List String
  deriving Repr, DecidableEq

/-- Opaque per-credential runtime state: either the parent's shared
credential or a per-project virtual credential wrapping the shared one. -/
inductive RuntimeVal where
  | sharedC (c : SharedCred)
  | virtualC (projectId : String) (c : SharedCred)
  deriving Repr, DecidableEq

/-- Quota state; `nextRecoverAt` is the field reconciliation ignores. -/
structure Quota where
  nextRecoverAt : Nat := 0
  exceeded : Bool := false
  deriving Repr, DecidableEq

/-- `coreauth.Auth` restricted to the fields the watcher reads and writes.
Times are ticks with `0` as Go's zero `time.Time`. -/
structure WAuth where
  id : String := ""
  provider : String := ""
  label : String := ""
  status : AuthStatus := .active
  disabled : Bool := false
  proxyURL : String := ""
  attributes : AttrMap := []
  metadata : Metadata := []
  createdAt : Nat := 0
  updatedAt : Nat := 0
  lastRefreshedAt : Nat := 0
  nextRefreshAfter : Nat := 0
  runtime : Option RuntimeVal := none
  quota : Quota := {}
  deriving Repr, DecidableEq

/-- `normalizeAuth`: clears `created_at`, `updated_at`, `last_refreshed_at`,
`next_refresh_after`, `runtime` and `quota.next_recover_at` on a clone. -/
def normalizeAuth (a : WAuth) : WAuth :=
  { a with
    createdAt := 0
    updatedAt := 0
    lastRefreshedAt := 0
    nextRefreshAfter := 0
    runtime := none
    quota := { a.quota with nextRecoverAt := 0 } }

/-- `authEqual`: `reflect.DeepEqual` of the normalized clones. -/
def authEqual (a b : WAuth) : Bool :=
  normalizeAuth a == normalizeAuth b

/-- `AuthUpdateAction`. -/
inductive UpdateAction where
  | add
  | modify
  | delete
  deriving Repr, DecidableEq

/-- `AuthUpdate`. -/
structure AuthUpdate where
  action : UpdateAction
  id : String
  auth : Option WAuth
  deriving Repr, DecidableEq

/-- The watcher's `map[string]*coreauth.Auth` state, as an association list
with unique keys. -/
abbrev AuthState := List (String × WAuth)

/-- Go map insert (replace an existing key in place, else append). -/
def stateInsert (st : AuthState) (id : String) (a : WAuth) : AuthState :=
  if st.any (fun p => p.fst == id) then
    st.map (fun p => if p.fst == id then (id, a) else p)
  else st ++ [(id, a)]

/-- `newState` construction of `prepareAuthUpdatesLocked`: index the snapshot
by id, skipping entries with an empty id; a later duplicate id overwrites an
earlier one. -/
def buildState (auths : List WAuth) : AuthState :=
  auths.foldl (fun st a => if a.id = "" then st else stateInsert st a.id a) []

/-- Go map lookup. -/
def stateLookup (st : AuthState) (id : String) : Option WAuth :=
  (st.find? (fun p => p.fst == id)).map (·.snd)

/-- `prepareAuthUpdatesLocked` (steady state: a previous state and a live
queue): Add for new ids, Modify for ids whose credential changed modulo
`normalizeAuth`, Delete for ids that disappeared. -/
def prepareAuthUpdates (current next : AuthState) : List AuthUpdate :=
  (next.filterMap (fun p =>
    match stateLookup current p.fst with
    | none => some { action := .add, id := p.fst, auth := some p.snd }
    | some existing =>
      if authEqual existing p.snd then none
      else some { action := .modify, id := p.fst, auth := some p.snd }))
  ++ (current.filterMap (fun p =>
    if (stateLookup next p.fst).isSome then none
    else some { action := .delete, id := p.fst, auth := none }))

/-! ### Codex cross-provider synthesis (SnapshotCoreAuths) -/

/-- One `models[]` entry of a codex-api-key config block (`alias` is a Lean
keyword, so the Go `Alias` field is called `modelAlias` here). -/
structure CodexModel where
  name : String := ""
  modelAlias : String := ""
  deriving Repr, DecidableEq

/-- A `codex-api-key` config entry. -/
structure CodexKey where
  apiKey : String := ""
  baseURL : String := ""
  providerType : String := ""
  proxyURL : String := ""
  headers : List (String × String) := []
  models : List CodexModel := []
  deriving Repr, DecidableEq

/-- `addConfigHeadersToAttrs`: adds `header:<Name>` attributes, skipping
blank keys or values. -/
def headerAttrs (headers : List (String × String)) : AttrMap :=
  headers.filterMap (fun p =>
    let key := goTrim p.fst
    let val := goTrim p.snd
    if key = "" ∨ val = "" then none else some ("header:" ++ key, val))

/-- The per-model credential synthesized for a cross-provider codex entry
(the loop body over `ck.Models` in `SnapshotCoreAuths`); `none` when the
trimmed alias is empty.  `idNext` abstracts the stable id generator
(`kind`, `parts` ↦ `(id, token)`). -/
def crossProviderAuthOfModel (idNext : String → List String → String × String)
    (now : Nat) (ck : CodexKey) (m : CodexModel) : Option WAuth :=
  let key := goTrim ck.apiKey
  let providerType := goToLower (goTrim ck.providerType)
  let mAlias := goTrim m.modelAlias
  if mAlias = "" then none
  else
    let idKind := "cross-provider:" ++ providerType ++ ":" ++ mAlias
    let idTok := idNext idKind [key, ck.baseURL, mAlias]
    let attrs : AttrMap :=
      [("source", "config:codex-cross-provider[" ++ idTok.2 ++ "]"),
       ("api_key", key),
       ("provider_type", providerType),
       ("model_alias", mAlias),
       ("model_name", goTrim m.name)]
      ++ (if ck.baseURL ≠ "" then [("base_url", ck.baseURL)] else [])
      ++ headerAttrs ck.headers
    some { id := idTok.1
           provider := "cross-provider-" ++ providerType
           label := "cross-provider-" ++ providerType ++ ":" ++ mAlias
           status := .active
           proxyURL := goTrim ck.proxyURL
           attributes := attrs
           createdAt := now
           updatedAt := now }

/-- The codex-api-key portion of `SnapshotCoreAuths` for one config entry. -/
def codexEntryAuths (idNext : String → List String → String × String)
    (now : Nat) (ck : CodexKey) : List WAuth :=
  let key := goTrim ck.apiKey
  if key = "" then []
  else
    let providerType := goToLower (goTrim ck.providerType)
    if providerType ≠ "" then
      ck.models.filterMap (crossProviderAuthOfModel idNext now ck)
    else
      let idTok := idNext "codex:apikey" [key, ck.baseURL]
      let attrs : AttrMap :=
        [("source", "config:codex[" ++ idTok.2 ++ "]"),
         ("api_key", key)]
        ++ (if ck.baseURL ≠ "" then [("base_url", ck.baseURL)] else [])
        ++ headerAttrs ck.headers
      [{ id := idTok.1
         provider := "codex"
         label := "codex-apikey"
         status := .active
         proxyURL := goTrim ck.proxyURL
         attributes := attrs
         createdAt := now
         updatedAt := now }]

/-! ### Gemini virtual credentials (SnapshotCoreAuths auth-file portion) -/

/-- The metadata fields of a Gemini OAuth auth file the watcher reads. -/
structure GeminiMeta where
  typ : String := ""
  email : String := ""
  projectId : String := ""
  proxyUrl : String := ""
  deriving Repr, DecidableEq

/-- The accumulating loop of `splitGeminiProjectIDs`: trim each part, skip
empties and already-seen ids. -/
def collectProjects : List String → List String → List String
  | [], _ => []
  | part :: rest, seen =>
    let id := goTrim part
    if id = "" then collectProjects rest seen
    else if id ∈ seen then collectProjects rest seen
    else id :: collectProjects rest (id :: seen)

/-- `splitGeminiProjectIDs`: distinct non-empty trimmed project ids of the
comma-separated `project_id` metadata string, in first-occurrence order. -/
def splitGeminiProjectIDs (meta : GeminiMeta) : List String :=
  let trimmed := goTrim meta.projectId
  if trimmed = "" then []
  else collectProjects (splitOnComma trimmed) []

/-- The `strings.NewReplacer("/", "_", "\\", "_", " ", "_")` of
`buildGeminiVirtualID`. -/
def sanitizeProjectChar (c : Char) : Char :=
  if c = '/' ∨ c = '\\' ∨ c = ' ' then '_' else c

/-- The sanitized project slug used in a virtual credential id. -/
def geminiProjectSlug (projectID : String) : String :=
  let project := goTrim projectID
  let project := if project = "" then "project" else project
  ⟨project.data.map sanitizeProjectChar⟩

/-- `buildGeminiVirtualID`. -/
def buildGeminiVirtualID (baseID projectID : String) : String :=
  baseID ++ "::" ++ geminiProjectSlug projectID

/-- The shared refresh runtime `geminicli.NewSharedCredential` builds for a
multi-project file. -/
def geminiSharedOf (primary : WAuth) (meta : GeminiMeta) : SharedCred :=
  { parentId := primary.id, email := meta.email, projects := splitGeminiProjectIDs meta }

/-- The primary credential's attribute map after `synthesizeGeminiVirtualAuths`
marks it as a virtual primary. -/
def geminiPrimaryAttrs (primary : WAuth) (meta : GeminiMeta) : AttrMap :=
  attrSet (attrSet primary.attributes "gemini_virtual_primary" "true")
    "virtual_children" (goJoin "," (splitGeminiProjectIDs meta))

/-- One virtual child credential of `synthesizeGeminiVirtualAuths`. -/
def geminiVirtualOf (primary : WAuth) (meta : GeminiMeta) (now : Nat)
    (projectID : String) : WAuth :=
  let source := attrGet (geminiPrimaryAttrs primary meta) "source"
  let authPath := attrGet (geminiPrimaryAttrs primary meta) "path"
  let originalProvider := if primary.provider = "" then "gemini-cli" else primary.provider
  let label := if primary.label = "" then originalProvider else primary.label
  let attrs : AttrMap :=
    [("runtime_only", "true"),
     ("gemini_virtual_parent", primary.id),
     ("gemini_virtual_project", projectID)]
    ++ (if source ≠ "" then [("source", source)] else [])
    ++ (if authPath ≠ "" then [("path", authPath)] else [])
  let proxy := goTrim primary.proxyURL
  let metadataCopy : Metadata :=
    [("email", .s meta.email),
     ("project_id", .s projectID),
     ("virtual", .b true),
     ("virtual_parent_id", .s primary.id),
     ("type", .s meta.typ)]
    ++ (if proxy ≠ "" then [("proxy_url", .s proxy)] else [])
  { id := buildGeminiVirtualID primary.id projectID
    provider := originalProvider
    label := label ++ " [" ++ projectID ++ "]"
    status := AuthStatus.active
    attributes := attrs
    metadata := metadataCopy
    proxyURL := primary.proxyURL
    createdAt := now
    updatedAt := now
    runtime := some (.virtualC projectID (geminiSharedOf primary meta)) }

/-- `synthesizeGeminiVirtualAuths`: with at most one project the primary is
returned untouched with no children; otherwise the primary is disabled and
one active virtual child per project shares the parent's refresh runtime. -/
def synthesizeGeminiVirtualAuths (primary : WAuth) (meta : GeminiMeta)
    (now : Nat) : WAuth × List WAuth :=
  let projects := splitGeminiProjectIDs meta
  if projects.length ≤ 1 then (primary, [])
  else
    ({ primary with
       disabled := true
       status := .disabled
       runtime := some (.sharedC (geminiSharedOf primary meta))
       attributes := geminiPrimaryAttrs primary meta },
     projects.map (geminiVirtualOf primary meta now))

/-- The file-backed credential built from one auth file (the loop body of
`SnapshotCoreAuths` over `$auth_dir/*.json`), restricted to a gemini-typed
file's metadata fields. -/
def geminiFileBase (id full : String) (meta : GeminiMeta) (now : Nat) : WAuth :=
  let provider := if goToLower meta.typ = "gemini" then "gemini-cli" else goToLower meta.typ
  let label := if meta.email ≠ "" then meta.email else provider
  { id := id
    provider := provider
    label := label
    status := .active
    attributes := [("source", full), ("path", full)]
    metadata := [("type", .s meta.typ), ("email", .s meta.email),
                 ("project_id", .s meta.projectId), ("proxy_url", .s meta.proxyUrl)]
    proxyURL := meta.proxyUrl
    createdAt := now
    updatedAt := now }

/-- The auth-file portion of `SnapshotCoreAuths` for one Gemini-typed file:
build the file-backed credential, then expand multi-project files into a
disabled primary plus virtual children. -/
def geminiFileAuths (id full : String) (meta : GeminiMeta) (now : Nat) : List WAuth :=
  let provider := if goToLower meta.typ = "gemini" then "gemini-cli" else goToLower meta.typ
  let a := geminiFileBase id full meta now
  if provider = "gemini-cli" then
    let expanded := synthesizeGeminiVirtualAuths a meta now
    if expanded.2 ≠ [] then expanded.1 :: expanded.2 else [a]
  else [a]

/-- C1 counterexample fixture: a cross-provider codex entry with an empty
base-url. -/
def noBaseCodexKey : CodexKey :=
  { apiKey := "k", baseURL := "", providerType := "claude",
    models := [{ name := "claude-opus-4-5", modelAlias := "gpt-5" }] }

/-- C1 witness fixture: a cross-provider codex entry with a base-url and two
models, one of them with a blank alias. -/
def witnessCodexKey : CodexKey :=
  { apiKey := "k", baseURL := "https://x.example/anthropic", providerType := "claude",
    models := [{ name := "claude-opus-4-5", modelAlias := "gpt-5" },
               { name := "claude-sonnet-4-5", modelAlias := " " }] }

/-- A concrete stable-id generator for witnesses. -/
def witnessIdNext (kind : String) (parts : List String) : String × String :=
  (kind ++ ":" ++ goJoin ":" parts, "tok")

/-- C6 witness fixtures: two credentials differing only in timestamps. -/
def authTsA : WAuth :=
  { id := "x", provider := "claude", createdAt := 5 }

/-- See `authTsA`. -/
def authTsB : WAuth :=
  { id := "x", provider := "claude", createdAt := 9, updatedAt := 4 }

/-- C7 counterexample fixture: two distinct project ids whose sanitized
slugs collide. -/
def collisionMeta : GeminiMeta :=
  { typ := "gemini", email := "", projectId := "a/b,a_b", proxyUrl := "" }

/-- C7 witness fixture. -/
def twoProjectMeta : GeminiMeta :=
  { typ := "gemini", email := "dev@example.com", projectId := "p1,p2", proxyUrl := "" }

end CLIProxy.Watcher


namespace CLIProxy.Responses

/-! ## OpenAI Responses → Claude Messages request conversion
(claude_openai-responses_request.go) -/

/-- Go `strings.HasPrefix`. -/
def goHasPrefix (s pre : String) : Bool :=
  pre.data.isPrefixOf s.data

/-- Go `strings.TrimPrefix`. -/
def goTrimPrefix (s pre : String) : String :=
  if goHasPrefix s pre then ⟨s.data.drop pre.data.length⟩ else s

/-- Split at the first occurrence of a separator (`strings.SplitN(s, sep, 2)`
when the separator occurs; `none` when it does not). -/
def splitOnceAux (sep : List Char) : List Char → List Char → Option (List Char × List Char)
  | [], _ => none
  | c :: cs, acc =>
    if sep.isPrefixOf (c :: cs) then some (acc.reverse, (c :: cs).drop sep.length)
    else splitOnceAux sep cs (c :: acc)

/-- See `splitOnceAux`. -/
def splitOnceOn (sep s : String) : Option (String × String) :=
  (splitOnceAux sep.data s.data []).map (fun p => (⟨p.1⟩, ⟨p.2⟩))

/-- One element of an `input[].content` array as the converter reads it. -/
structure RPart where
  ptype : String := ""
  text : Option String := none
  imageUrl : String := ""
  url : String := ""
  deriving Repr, DecidableEq

/-- One `input[]` item: the fields the converter reads, with gjson's zero
values for absent fields (`content = none` models absent-or-non-array). -/
structure InputItem where
  typ : String := ""
  role : String := ""
  content : Option (List RPart) := none
  callId : String := ""
  name : String := ""
  arguments : String := ""
  output : String := ""
  deriving Repr, DecidableEq

/-- One `tools[]` entry of the Responses request. -/
structure RTool where
  name : Option String := none
  description : Option String := none
  parameters : Option String := none
  parametersJsonSchema : Option String := none
  deriving Repr, DecidableEq

/-- The `tool_choice` field: absent, a JSON string, a JSON object (with its
`type` and `function.name`), or any other JSON value. -/
inductive RToolChoice where
  | absent
  | str (s : String)
  | fnObj (typ : String) (functionName : String)
  | otherJson
  deriving Repr, DecidableEq

/-- A well-formed OpenAI Responses request, restricted to the fields the
converter reads.  `instructions = none` models absent-or-non-string. -/
structure ResponsesRequest where
  instructions : Option String := none
  maxOutputTokens : Option Int := none
  input : Option (List InputItem) := none
  tools : Option (List RTool) := none
  toolChoice : RToolChoice := .absent
  deriving Repr, DecidableEq

/-- A Claude image source. -/
inductive ImageSource where
  | base64 (mediaType data : String)
  | url (u : String)
  deriving Repr, DecidableEq

/-- A Claude content block. -/
inductive CBlock where
  | text (t : String)
  | image (source : ImageSource)
  | toolUse (id name input : String)
  | toolResult (toolUseId content : String)
  deriving Repr, DecidableEq

/-- Claude message content: a plain string (the legacy single-text shape) or
an array of blocks. -/
inductive CContent where
  | str (s : String)
  | blocks (bs : List CBlock)
  deriving Repr, DecidableEq

/-- A Claude message. -/
structure CMessage where
  role : String
  content : CContent
  deriving Repr, DecidableEq

/-- A Claude tool declaration (`input_schema` as raw JSON). -/
structure CTool where
  name : String
  description : String
  inputSchema : String
  deriving Repr, DecidableEq

/-- Claude `tool_choice`. -/
inductive CToolChoice where
  | unset
  | auto
  | any
  | tool (name : String)
  deriving Repr, DecidableEq

/-- The produced Claude Messages request (empty `system`/`tools` model the
absent fields). -/
structure ClaudeRequest where
  model : String
  maxTokens : Int
  stream : Bool
  system : List CLIProxy.Claude.TextPart
  messages : List CMessage
  tools : List CTool
  toolChoice : CToolChoice
  userId : String
  deriving Repr, DecidableEq

/-- The `input_image` handling: data URIs become base64 sources (dropped when
the base64 payload is missing or empty), other URLs become URL sources. -/
def imageBlockOfURL (url : String) : Option CBlock :=
  if goHasPrefix url "data:" then
    let trimmed := goTrimPrefix url "data:"
    match splitOnceOn ";base64," trimmed with
    | some md =>
      let mediaType := if md.1 ≠ "" then md.1 else "application/octet-stream"
      if md.2 ≠ "" then some (.image (.base64 mediaType md.2)) else none
    | none => none
  else some (.image (.url url))

/-- The mutable state of the per-part loop in the `message` branch. -/
structure PartAcc where
  role : String
  agg : String
  blocks : List CBlock
  hasImage : Bool
  deriving Repr, DecidableEq

/-- One iteration of the part loop: text parts append a text block and force
the role from the part type; image parts append an image block and default
the role to `user`; other part types are ignored. -/
def processPart (acc : PartAcc) (p : RPart) : PartAcc :=
  if p.ptype = "input_text" ∨ p.ptype = "output_text" then
    let acc1 :=
      match p.text with
      | some txt => { acc with agg := acc.agg ++ txt, blocks := acc.blocks ++ [CBlock.text txt] }
      | none => acc
    { acc1 with role := if p.ptype = "input_text" then "user" else "assistant" }
  else if p.ptype = "input_image" then
    let url := if p.imageUrl ≠ "" then p.imageUrl else p.url
    if url ≠ "" then
      match imageBlockOfURL url with
      | some blk =>
        { acc with
          blocks := acc.blocks ++ [blk]
          role := if acc.role = "" then "user" else acc.role
          hasImage := true }
      | none => acc
    else acc
  else acc

/-- `part.Get("text").String()` on a built block (text blocks carry their
text; other block shapes have no `text` field, so gjson yields `""`). -/
def textOfBlock : CBlock → String
  | .text t => t
  | _ => ""

/-- The `message` branch: fold the parts, fall back to the item role
restricted to user/assistant (never system), and emit either a single string
content, a block array, or nothing. -/
def messageOfItem (it : InputItem) : Option CMessage :=
  let parts := it.content.getD []
  let acc := parts.foldl processPart { role := "", agg := "", blocks := [], hasImage := false }
  let role :=
    if acc.role = "" then
      match it.role with
      | "user" => "user"
      | "assistant" => "assistant"
      | _ => "user"
    else acc.role
  if acc.blocks ≠ [] then
    if acc.blocks.length = 1 ∧ acc.hasImage = false then
      some { role := role, content := .str (textOfBlock (acc.blocks.headD (CBlock.text ""))) }
    else
      some { role := role, content := .blocks acc.blocks }
  else if acc.agg ≠ "" then
    some { role := role, content := .str acc.agg }
  else none

/-- `genToolCallID`: a fresh `toolu_`-prefixed id; the 24 random characters
are abstracted by the supply `gen`. -/
def genToolCallID (gen : Nat → String) (k : Nat) : String :=
  "toolu_" ++ gen k

/-- The `function_call` branch: an assistant message with one `tool_use`
block; the arguments become the input when they are non-empty valid JSON
(`gjson.Valid` abstracted as `validJson`). -/
def toolUseMessage (callID : String) (it : InputItem) (validJson : String → Bool) : CMessage :=
  { role := "assistant"
    content := .blocks [CBlock.toolUse callID it.name
      (if it.arguments ≠ "" ∧ validJson it.arguments then it.arguments else "\x7b\x7d")] }

/-- The `function_call_output` branch: a user message with one `tool_result`
block. -/
def toolResultMessage (it : InputItem) : CMessage :=
  { role := "user", content := .blocks [CBlock.toolResult it.callId it.output] }

/-- The effective item type: items with a role but no type count as
messages. -/
def itemType (it : InputItem) : String :=
  if it.typ = "" ∧ it.role ≠ "" then "message" else it.typ

/-- The `input[]` processing loop.  System items are skipped (already lifted
into the top-level system array); `k` counts the generated tool-call ids. -/
def convertItems (validJson : String → Bool) (gen : Nat → String) :
    List InputItem → Nat → List CMessage
  | [], _ => []
  | it :: rest, k =>
    if eqFold it.role "system" then convertItems validJson gen rest k
    else if itemType it = "message" then
      match messageOfItem it with
      | some m => m :: convertItems validJson gen rest k
      | none => convertItems validJson gen rest k
    else if itemType it = "function_call" then
      if it.callId = "" then
        toolUseMessage (genToolCallID gen k) it validJson :: convertItems validJson gen rest (k + 1)
      else
        toolUseMessage it.callId it validJson :: convertItems validJson gen rest k
    else if itemType it = "function_call_output" then
      toolResultMessage it :: convertItems validJson gen rest k
    else convertItems validJson gen rest k

/-- The collected top-level system parts: a non-empty `instructions` string
first, then every non-empty `text` of every part of every system item. -/
def systemPartsOfRequest (req : ResponsesRequest) : List CLIProxy.Claude.TextPart :=
  (match req.instructions with
   | some t => if t ≠ "" then [⟨t⟩] else []
   | none => []) ++
  (match req.input with
   | some items =>
     items.flatMap (fun it =>
       if eqFold it.role "system" then
         match it.content with
         | some parts =>
           parts.filterMap (fun p =>
             let tx := p.text.getD ""
             if tx ≠ "" then some ⟨tx⟩ else none)
         | none => []
       else [])
   | none => [])

/-- `tools[]` conversion: `parameters` (or `parametersJsonSchema`) becomes
`input_schema`, defaulting to the empty object. -/
def convertTool (t : RTool) : CTool :=
  { name := t.name.getD ""
    description := t.description.getD ""
    inputSchema :=
      match t.parameters with
      | some p => p
      | none =>
        match t.parametersJsonSchema with
        | some p => p
        | none => "\x7b\x7d" }

/-- See `convertTool`. -/
def convertTools : Option (List RTool) → List CTool
  | some ts => ts.map convertTool
  | none => []

/-- `tool_choice` mapping (`auto` → auto, `required` → any, `none` and
anything unrecognized → left unset, `{type:"function"}` → tool by name). -/
def convertToolChoice : RToolChoice → CToolChoice
  | .absent => .unset
  | .str s =>
    if s = "auto" then .auto
    else if s = "required" then .any
    else .unset
  | .fnObj typ fn => if typ = "function" then .tool fn else .unset
  | .otherJson => .unset

/-- `ConvertOpenAIResponsesRequestToClaude`.  `validJson` abstracts
`gjson.Valid`, `gen` the random id characters, `userID` the process-wide
metadata user id. -/
def ConvertOpenAIResponsesRequestToClaude (validJson : String → Bool)
    (gen : Nat → String) (userID : String) (modelName : String)
    (req : ResponsesRequest) (stream : Bool) : ClaudeRequest :=
  { model := modelName
    maxTokens := req.maxOutputTokens.getD 32000
    stream := stream
    system := systemPartsOfRequest req
    messages :=
      match req.input with
      | some items => convertItems validJson gen items 0
      | none => []
    tools := convertTools req.tools
    toolChoice := convertToolChoice req.toolChoice
    userId := userID }

/-- The concatenated text of a part list. -/
def partsText : List RPart → String
  | [] => ""
  | p :: ps => p.text.getD "" ++ partsText ps

/-- The concatenated text of a block list. -/
def blocksText : List CBlock → String
  | [] => ""
  | b :: bs => textOfBlock b ++ blocksText bs

/-- The text a Claude message content carries. -/
def contentText : CContent → String
  | .str s => s
  | .blocks bs => blocksText bs

/-- The message each non-generating item contributes, independent of the
id-generation counter (`none` for items that generate an id or emit
nothing). -/
def emittedIndep (validJson : String → Bool) (it : InputItem) : Option CMessage :=
  if eqFold it.role "system" then none
  else if itemType it = "message" then messageOfItem it
  else if itemType it = "function_call" then
    if it.callId = "" then none else some (toolUseMessage it.callId it validJson)
  else if itemType it = "function_call_output" then some (toolResultMessage it)
  else none

/-- C5 witness fixture. -/
def witnessReq : ResponsesRequest :=
  { instructions := some "be terse"
    maxOutputTokens := some 512
    input := some
      [ { typ := "", role := "user",
          content := some [{ ptype := "input_text", text := some "hi" }] },
        { typ := "function_call", callId := "", name := "search", arguments := "" },
        { typ := "function_call_output", callId := "call_1", output := "ok" } ]
    tools := some [{ name := some "search", parameters := some "\x7b\x7d" }]
    toolChoice := .str "auto" }

end CLIProxy.Responses

/-! # Theorems -/

namespace CLIProxy.Exec

lemma executeWithClaude_fst_ne_unsupported (env : ExecEnv) (auth : Option Auth)
    (model payload : String) (q : String) :
    (executeWithClaude env auth model payload).1 ≠ ExecOutcome.errUnsupported q := by
  unfold executeWithClaude
  dsimp only
  split
  · simp
  · split
    · simp
    · split
      · simp
      · split <;> simp

lemma executeStreamWithClaude_fst_ne_unsupported (env : ExecEnv) (auth : Option Auth)
    (model payload : String) (q : String) :
    (executeStreamWithClaude env auth model payload).1 ≠ StreamOutcome.errUnsupported q := by
  unfold executeStreamWithClaude
  dsimp only
  split
  · simp
  · split
    · simp
    · split
      · simp
      · split <;> simp

lemma countTokensWithClaude_fst_ne_unsupported (env : ExecEnv) (auth : Option Auth)
    (model payload : String) (q : String) :
    (countTokensWithClaude env auth model payload).1 ≠ ExecOutcome.errUnsupported q := by
  unfold countTokensWithClaude
  dsimp only
  split <;> simp

/-- C3: a cross-provider Execute/ExecuteStream call whose credential lacks a
trimmed `api_key` or `base_url` fails with HTTP 401 (Unauthenticated) before
any upstream request is issued, and the error message names the missing field
(base URL when the base URL is empty, otherwise the API key). -/
theorem cross_provider_missing_creds_unauthenticated
    (env : ExecEnv) (auth : Option Auth) (model payload : String)
    (h : (crossProviderCreds auth).1 = "" ∨ (crossProviderCreds auth).2 = "") :
    executeWithClaude env auth model payload =
      (.errStatus 401 (if (crossProviderCreds auth).2 = ""
          then "cross-provider executor: missing base URL"
          else "cross-provider executor: missing API key"), []) ∧
    executeStreamWithClaude env auth model payload =
      (.errStatus 401 (if (crossProviderCreds auth).2 = ""
          then "cross-provider executor: missing base URL"
          else "cross-provider executor: missing API key"), []) := by
  by_cases hb : (crossProviderCreds auth).2 = ""
  · constructor <;> simp [executeWithClaude, executeStreamWithClaude, hb]
  · have hk : (crossProviderCreds auth).1 = "" := h.resolve_right hb
    constructor <;> simp [executeWithClaude, executeStreamWithClaude, hb, hk]

theorem cross_provider_missing_creds_unauthenticated_witness :
    ((crossProviderCreds missingBaseAuth).1 = "" ∨ (crossProviderCreds missingBaseAuth).2 = "") ∧
    executeWithClaude witnessEnv missingBaseAuth "m" "p" =
      (.errStatus 401 "cross-provider executor: missing base URL", []) := by
  have hb : (crossProviderCreds missingBaseAuth).2 = "" := by decide
  have h := cross_provider_missing_creds_unauthenticated witnessEnv missingBaseAuth "m" "p"
    (Or.inr hb)
  exact ⟨Or.inr hb, by simpa [hb] using h.1⟩

/-- C4: when the upstream answers with a status outside 200-299, both the
non-streaming and the streaming call return an error carrying exactly that
status and the upstream body verbatim; the only request issued is the one the
error reports on, and no translated response is produced. -/
theorem cross_provider_non2xx_error_passthrough
    (env : ExecEnv) (auth : Option Auth) (model payload : String)
    (status : Nat) (respBody : String) (lines : List String)
    (hkey : (crossProviderCreds auth).1 ≠ "")
    (hbase : (crossProviderCreds auth).2 ≠ "")
    (hup : env.upstream (claudeUpstreamRequest env auth model payload false) =
      .response status respBody lines)
    (hups : env.upstream (claudeUpstreamRequest env auth model payload true) =
      .response status respBody lines)
    (hs : status < 200 ∨ 300 ≤ status) :
    executeWithClaude env auth model payload =
      (.errStatus status respBody, [claudeUpstreamRequest env auth model payload false]) ∧
    executeStreamWithClaude env auth model payload =
      (.errStatus status respBody, [claudeUpstreamRequest env auth model payload true]) := by
  constructor
  · simp [executeWithClaude, hbase, hkey, hup, hs]
  · simp [executeStreamWithClaude, hbase, hkey, hups, hs]

theorem cross_provider_non2xx_error_passthrough_witness :
    executeWithClaude witnessEnv fullCredsAuth "m" "p" =
      (.errStatus 404 "upstream error body",
       [claudeUpstreamRequest witnessEnv fullCredsAuth "m" "p" false]) := by
  have h := cross_provider_non2xx_error_passthrough witnessEnv fullCredsAuth "m" "p"
    404 "upstream error body" [] (by decide) (by decide) rfl rfl (by decide)
  exact h.1

/-- C8: for any provider type other than `claude` the executor's Execute,
ExecuteStream and CountTokens all fail with the `unsupported provider type`
error (whose message contains that phrase) without contacting the upstream;
for provider type `claude` none of the three returns that error. -/
theorem cross_provider_unsupported_provider_type
    (e : CrossProviderExecutor) (env : ExecEnv) (auth : Option Auth)
    (model payload : String)
    (h : e.providerType ≠ "claude") :
    (e.Execute env auth model payload = (.errUnsupported e.providerType, []) ∧
     e.ExecuteStream env auth model payload = (.errUnsupported e.providerType, []) ∧
     e.CountTokens env auth model payload = (.errUnsupported e.providerType, []) ∧
     ∃ pre post, (ExecOutcome.errUnsupported e.providerType).message =
       pre ++ "unsupported provider type" ++ post) ∧
    (∀ q : String,
      ((NewCrossProviderExecutor "claude").Execute env auth model payload).1 ≠
        ExecOutcome.errUnsupported q ∧
      ((NewCrossProviderExecutor "claude").ExecuteStream env auth model payload).1 ≠
        StreamOutcome.errUnsupported q ∧
      ((NewCrossProviderExecutor "claude").CountTokens env auth model payload).1 ≠
        ExecOutcome.errUnsupported q) := by
  have hpt : (NewCrossProviderExecutor "claude").providerType = "claude" := rfl
  refine ⟨⟨?_, ?_, ?_, ⟨"cross-provider executor: ", ": " ++ e.providerType, ?_⟩⟩, ?_⟩
  · simp [CrossProviderExecutor.Execute, h]
  · simp [CrossProviderExecutor.ExecuteStream, h]
  · simp [CrossProviderExecutor.CountTokens, h]
  · rfl
  · intro q
    refine ⟨?_, ?_, ?_⟩
    · rw [CrossProviderExecutor.Execute, hpt, if_pos rfl]
      exact executeWithClaude_fst_ne_unsupported env auth model payload q
    · rw [CrossProviderExecutor.ExecuteStream, hpt, if_pos rfl]
      exact executeStreamWithClaude_fst_ne_unsupported env auth model payload q
    · rw [CrossProviderExecutor.CountTokens, hpt, if_pos rfl]
      exact countTokensWithClaude_fst_ne_unsupported env auth model payload q

theorem cross_provider_unsupported_provider_type_witness :
    (NewCrossProviderExecutor "gemini").Execute witnessEnv none "m" "p" =
      (.errUnsupported ((NewCrossProviderExecutor "gemini").providerType), []) ∧
    ((NewCrossProviderExecutor "claude").Execute witnessEnv none "m" "p").1 ≠
      ExecOutcome.errUnsupported "gemini" := by
  have h := cross_provider_unsupported_provider_type (NewCrossProviderExecutor "gemini")
    witnessEnv none "m" "p" (by decide)
  exact ⟨h.1.1, (h.2 "gemini").1⟩

end CLIProxy.Exec

namespace CLIProxy.Claude

lemma sanitizeChar_idem (c : Char) : sanitizeChar (sanitizeChar c) = sanitizeChar c := by
  unfold sanitizeChar
  by_cases h : allowedToolNameChar c
  · simp [h]
  · simp [h]

lemma sanitizeToolName_idem (s : String) :
    sanitizeToolName (sanitizeToolName s) = sanitizeToolName s := by
  unfold sanitizeToolName
  simp [List.map_map, Function.comp_def, sanitizeChar_idem]

lemma sanitizeMsgPart_idem (p : MsgPart) :
    sanitizeMsgPart (sanitizeMsgPart p) = sanitizeMsgPart p := by
  unfold sanitizeMsgPart
  by_cases h : p.ptype = "tool_use"
  · simp [h, sanitizeToolName_idem]
  · simp [h]

lemma sanitizeMsg_idem (m : Msg) : sanitizeMsg (sanitizeMsg m) = sanitizeMsg m := by
  unfold sanitizeMsg
  cases h : m.content with
  | arr ps => simp [List.map_map, Function.comp_def, sanitizeMsgPart_idem]
  | str s => simp [h]
  | other => simp [h]

/-- C9: tool-name sanitization is idempotent: sanitizing an already-sanitized
payload changes nothing, because every character the sanitizer emits (a kept
in-class character or the replacement `_`) is itself in the allowed class. -/
theorem sanitize_tool_names_idempotent (b : ClaudeBody) :
    sanitizeToolNames (sanitizeToolNames b) = sanitizeToolNames b := by
  unfold sanitizeToolNames
  simp [Option.map_map, List.map_map, Function.comp_def, sanitizeMsg_idem,
    sanitizeToolName_idem]

/-- C2 (amended): whenever the collected system parts are non-empty, the
lifted payload has no `role == "system"` message left, the non-system
messages keep their original relative order, the top-level `system` array is
exactly the collected parts, and every system message's non-empty string
content (resp. every `text`-typed element of its array content) appears in
that array. -/
theorem extract_system_lifts_system_messages
    (b : ClaudeBody) (msgs : List Msg)
    (hm : b.messages = some msgs)
    (hne : extractedSystemParts msgs ≠ []) :
    (extractSystemToTopLevel b).messages = some (msgs.filter (fun m => ¬ m.role = "system")) ∧
    (∀ msgs', (extractSystemToTopLevel b).messages = some msgs' →
       ∀ m ∈ msgs', m.role ≠ "system") ∧
    (extractSystemToTopLevel b).system = some (extractedSystemParts msgs) ∧
    (∀ m ∈ msgs, m.role = "system" →
       ∀ s, m.content = MsgContent.str s → s ≠ "" →
         TextPart.mk s ∈ extractedSystemParts msgs) ∧
    (∀ m ∈ msgs, m.role = "system" →
       ∀ ps, m.content = MsgContent.arr ps →
         ∀ p ∈ ps, p.ptype = "text" →
           TextPart.mk p.text ∈ extractedSystemParts msgs) := by
  have hres : extractSystemToTopLevel b =
      { b with system := some (extractedSystemParts msgs)
               messages := some (msgs.filter (fun m => ¬ m.role = "system")) } := by
    unfold extractSystemToTopLevel
    rw [hm]
    simp [hne]
  refine ⟨?_, ?_, ?_, ?_, ?_⟩
  · rw [hres]
  · intro msgs' hmsgs' m hmem
    have hmm : (extractSystemToTopLevel b).messages =
        some (msgs.filter (fun m => ¬ m.role = "system")) := by rw [hres]
    rw [hmm] at hmsgs'
    simp only [Option.some_inj] at hmsgs'
    subst hmsgs'
    exact of_decide_eq_true (List.mem_filter.mp hmem).2
  · rw [hres]
  · intro m hmem hrole s hcontent hs
    unfold extractedSystemParts
    refine List.mem_flatMap.mpr ⟨m, hmem, ?_⟩
    rw [if_pos hrole]
    unfold systemPartsOfMsg
    rw [hcontent]
    simp [hs]
  · intro m hmem hrole ps hcontent p hp hptype
    unfold extractedSystemParts
    refine List.mem_flatMap.mpr ⟨m, hmem, ?_⟩
    rw [if_pos hrole]
    unfold systemPartsOfMsg
    rw [hcontent]
    exact List.mem_filterMap.mpr ⟨p, hp, by rw [if_pos hptype]⟩

theorem extract_system_lifts_system_messages_witness :
    extractedSystemParts
        [{ role := "system", content := .str "be terse" },
         { role := "user", content := MsgContent.str "hi" }] ≠ [] ∧
    (extractSystemToTopLevel liftableBody).messages =
      some [{ role := "user", content := MsgContent.str "hi" }] ∧
    (extractSystemToTopLevel liftableBody).system =
      some [TextPart.mk "be terse"] := by
  have h := extract_system_lifts_system_messages liftableBody
    [{ role := "system", content := .str "be terse" },
     { role := "user", content := MsgContent.str "hi" }]
    rfl (by decide)
  refine ⟨by decide, ?_, ?_⟩
  · rw [h.1]; decide
  · rw [h.2.2.1]; decide

/-- C2 counterexample: a payload whose only message is a system message with
empty string content yields no collected parts, so `extractSystemToTopLevel`
returns the payload unchanged and the messages array still contains an
element with role `system` — refuting the claim that after system-lifting no
system message remains. -/
theorem extract_system_counterexample :
    extractSystemToTopLevel emptySystemBody = emptySystemBody ∧
    (extractSystemToTopLevel emptySystemBody).messages =
      some [{ role := "system", content := MsgContent.str "" }] ∧
    ∃ msgs, (extractSystemToTopLevel emptySystemBody).messages = some msgs ∧
      msgs.any (fun m => m.role == "system") = true := by
  refine ⟨by decide, by decide, [{ role := "system", content := MsgContent.str "" }], by decide, by decide⟩

end CLIProxy.Claude

namespace CLIProxy.Amp

/-- C10 (amended): with the localhost restriction enabled, a non-OPTIONS
request is rejected with 403 (and not forwarded) iff its `RemoteAddr` does
not parse to a loopback IP; OPTIONS requests are always rejected 403 by the
CORS middleware; and the outcome is a function of method and `RemoteAddr`
alone, so requests differing only in client-supplied headers (e.g.
X-Forwarded-For) receive the same outcome. -/
theorem amp_management_localhost_only
    (env : NetEnv) (req : HttpRequest)
    (h : req.method ≠ "OPTIONS") :
    (managementOutcome env true req = .denied 403 ↔
      remoteAddrIsLoopback env req.remoteAddr = false) ∧
    (managementOutcome env true req = .forwarded ↔
      remoteAddrIsLoopback env req.remoteAddr = true) ∧
    (∀ r : HttpRequest, r.method = "OPTIONS" →
      managementOutcome env true r = .denied 403) ∧
    (∀ r : HttpRequest, r.remoteAddr = req.remoteAddr → r.method = req.method →
      managementOutcome env true r = managementOutcome env true req) := by
  refine ⟨?_, ?_, ?_, ?_⟩
  · unfold managementOutcome noCORSMiddleware localhostOnlyMiddleware remoteAddrIsLoopback
    simp only [if_neg h]
    cases hip : env.parseIP ((env.splitHostPort req.remoteAddr).getD req.remoteAddr) with
    | none => simp
    | some ip => by_cases hl : ip.loopback <;> simp [hl]
  · unfold managementOutcome noCORSMiddleware localhostOnlyMiddleware remoteAddrIsLoopback
    simp only [if_neg h]
    cases hip : env.parseIP ((env.splitHostPort req.remoteAddr).getD req.remoteAddr) with
    | none => simp
    | some ip => by_cases hl : ip.loopback <;> simp [hl]
  · intro r hr
    unfold managementOutcome noCORSMiddleware
    simp [hr]
  · intro r hra hrm
    unfold managementOutcome noCORSMiddleware localhostOnlyMiddleware
    rw [hra, hrm]

theorem amp_management_localhost_only_witness :
    managementOutcome witnessNetEnv true
        { remoteAddr := "10.0.0.9:80", method := "POST",
          headers := [("X-Forwarded-For", "127.0.0.1")] } = .denied 403 ∧
    managementOutcome witnessNetEnv true
        { remoteAddr := "10.0.0.9:80", method := "POST", headers := [] } =
      managementOutcome witnessNetEnv true
        { remoteAddr := "10.0.0.9:80", method := "POST",
          headers := [("X-Forwarded-For", "127.0.0.1")] } := by
  have h := amp_management_localhost_only witnessNetEnv
    { remoteAddr := "10.0.0.9:80", method := "POST",
      headers := [("X-Forwarded-For", "127.0.0.1")] } (by decide)
  exact ⟨h.1.mpr (by decide),
    h.2.2.2 { remoteAddr := "10.0.0.9:80", method := "POST", headers := [] } rfl rfl⟩

/-- C10 counterexample: an OPTIONS request from a loopback address is
rejected with 403 by the always-installed CORS middleware, although its
`RemoteAddr` parses to a loopback IP — refuting both the claimed iff and the
claim that the decision is a function of `RemoteAddr` alone (the same
address with method POST is forwarded). -/
theorem amp_management_counterexample :
    remoteAddrIsLoopback witnessNetEnv "127.0.0.1:80" = true ∧
    managementOutcome witnessNetEnv true
      { remoteAddr := "127.0.0.1:80", method := "OPTIONS", headers := [] } = .denied 403 ∧
    managementOutcome witnessNetEnv true
      { remoteAddr := "127.0.0.1:80", method := "POST", headers := [] } = .forwarded := by
  refine ⟨by decide, by decide, by decide⟩

end CLIProxy.Amp

namespace CLIProxy.Watcher

lemma length_filterMap_eq_length_filter {α β : Type} (f : α → Option β) (p : α → Bool)
    (h : ∀ x, (f x).isSome = p x) (l : List α) :
    (l.filterMap f).length = (l.filter p).length := by
  induction l with
  | nil => rfl
  | cons x xs ih =>
    have hx := h x
    cases hfx : f x with
    | none =>
      rw [hfx] at hx
      simp [List.filterMap_cons, List.filter_cons, hfx, ← hx, ih]
    | some b =>
      rw [hfx] at hx
      simp [List.filterMap_cons, List.filter_cons, hfx, ← hx, ih]

lemma crossProviderAuthOfModel_isSome (idNext : String → List String → String × String)
    (now : Nat) (ck : CodexKey) (m : CodexModel) :
    (crossProviderAuthOfModel idNext now ck m).isSome = decide (goTrim m.modelAlias ≠ "") := by
  unfold crossProviderAuthOfModel
  by_cases hm : goTrim m.modelAlias = "" <;> simp [hm]

lemma headerAttrs_key_ne_base_url (k : String) : ("header:" ++ k) ≠ "base_url" := by
  intro h
  have h2 : (("header:" ++ k).data).head? = ("base_url".data).head? := by rw [h]
  have h3 : (("header:" ++ k).data).head? = some 'h' := rfl
  have h4 : ("base_url".data).head? = some 'b' := rfl
  rw [h3, h4] at h2
  exact absurd h2 (by decide)

lemma find?_headerAttrs_base_url (headers : List (String × String)) :
    (headerAttrs headers).find? (fun p => p.fst == "base_url") = none := by
  apply List.find?_eq_none.mpr
  intro x hx
  obtain ⟨p, _, hfp⟩ := List.mem_filterMap.mp hx
  dsimp only at hfp
  split at hfp
  · cases hfp
  · cases hfp
    simp only [beq_iff_eq]
    exact headerAttrs_key_ne_base_url (goTrim p.fst)

/-- C1 (amended): a codex-api-key entry with a non-blank api-key and a
non-blank provider-type synthesizes exactly one cross-provider credential per
models[] entry with a non-blank alias; each carries `provider_type`,
`model_alias`, `model_name` and `api_key` attributes, and a `base_url`
attribute exactly when the entry's base-url is non-empty; an entry without
models synthesizes nothing (no cross-provider credentials and no ordinary
codex credential). -/
theorem codex_cross_provider_synthesis
    (idNext : String → List String → String × String) (now : Nat) (ck : CodexKey)
    (hkey : goTrim ck.apiKey ≠ "")
    (hpt : goToLower (goTrim ck.providerType) ≠ "") :
    (codexEntryAuths idNext now ck).length =
      (ck.models.filter (fun m => goTrim m.modelAlias != "")).length ∧
    (∀ a ∈ codexEntryAuths idNext now ck,
      attrGet? a.attributes "provider_type" = some (goToLower (goTrim ck.providerType)) ∧
      attrGet? a.attributes "api_key" = some (goTrim ck.apiKey) ∧
      attrGet? a.attributes "base_url" =
        (if ck.baseURL ≠ "" then some ck.baseURL else none) ∧
      ∃ m ∈ ck.models, goTrim m.modelAlias ≠ "" ∧
        attrGet? a.attributes "model_alias" = some (goTrim m.modelAlias) ∧
        attrGet? a.attributes "model_name" = some (goTrim m.name)) ∧
    (ck.models = [] → codexEntryAuths idNext now ck = []) := by
  have hrep : codexEntryAuths idNext now ck =
      ck.models.filterMap (crossProviderAuthOfModel idNext now ck) := by
    unfold codexEntryAuths
    simp [hkey, hpt]
  refine ⟨?_, ?_, ?_⟩
  · rw [hrep]
    apply length_filterMap_eq_length_filter
    intro m
    rw [crossProviderAuthOfModel_isSome]
    by_cases hm : goTrim m.modelAlias = "" <;> simp [hm]
  · intro a ha
    rw [hrep] at ha
    obtain ⟨m, hm, hfm⟩ := List.mem_filterMap.mp ha
    unfold crossProviderAuthOfModel at hfm
    dsimp only at hfm
    split at hfm
    · cases hfm
    · rename_i halias
      cases hfm
      refine ⟨?_, ?_, ?_, m, hm, halias, ?_, ?_⟩
      · simp [attrGet?, List.find?]
      · simp [attrGet?, List.find?]
      · by_cases hb : ck.baseURL = ""
        · simp [attrGet?, List.find?, hb, List.find?_append, find?_headerAttrs_base_url]
        · simp [attrGet?, List.find?, hb]
      · simp [attrGet?, List.find?]
      · simp [attrGet?, List.find?]
  · intro hmodels
    rw [hrep, hmodels]
    rfl

theorem codex_cross_provider_synthesis_witness :
    goTrim witnessCodexKey.apiKey ≠ "" ∧
    goToLower (goTrim witnessCodexKey.providerType) ≠ "" ∧
    (codexEntryAuths witnessIdNext 0 witnessCodexKey).length = 1 ∧
    (codexEntryAuths witnessIdNext 0 witnessCodexKey).map
        (fun a => attrGet? a.attributes "model_alias") = [some "gpt-5"] := by
  have h := codex_cross_provider_synthesis witnessIdNext 0 witnessCodexKey
    (by decide) (by decide)
  refine ⟨by decide, by decide, ?_, by decide⟩
  rw [h.1]
  decide

/-- C1 counterexample: a cross-provider codex entry whose base-url is empty
synthesizes a credential that carries no `base_url` attribute at all —
refuting the claim that every synthesized cross-provider credential carries
`base_url` in its attributes. -/
theorem codex_cross_provider_counterexample :
    (codexEntryAuths witnessIdNext 0 noBaseCodexKey).map (fun a => a.provider) =
      ["cross-provider-claude"] ∧
    (codexEntryAuths witnessIdNext 0 noBaseCodexKey).map
        (fun a => attrGet? a.attributes "base_url") = [none] := by
  exact ⟨by decide, by decide⟩

end CLIProxy.Watcher


namespace CLIProxy.Watcher

lemma string_append_left_cancel (a : String) {s t : String}
    (h : a ++ s = a ++ t) : s = t := by
  have hd : a.data ++ s.data = a.data ++ t.data := congrArg String.data h
  have hst : s.data = t.data := List.append_cancel_left hd
  cases s
  cases t
  exact congrArg String.mk hst

lemma synthesizeGeminiVirtualAuths_expand (primary : WAuth) (meta : GeminiMeta)
    (now : Nat) (h : ¬ (splitGeminiProjectIDs meta).length ≤ 1) :
    synthesizeGeminiVirtualAuths primary meta now =
      ({ primary with
         disabled := true
         status := .disabled
         runtime := some (.sharedC (geminiSharedOf primary meta))
         attributes := geminiPrimaryAttrs primary meta },
       (splitGeminiProjectIDs meta).map (geminiVirtualOf primary meta now)) := by
  unfold synthesizeGeminiVirtualAuths
  rw [if_neg h]

lemma geminiFileAuths_expand (id full : String) (meta : GeminiMeta) (now : Nat)
    (htyp : goToLower meta.typ = "gemini")
    (h2 : 2 ≤ (splitGeminiProjectIDs meta).length) :
    geminiFileAuths id full meta now =
      { geminiFileBase id full meta now with
        disabled := true
        status := .disabled
        runtime := some (.sharedC (geminiSharedOf (geminiFileBase id full meta now) meta))
        attributes := geminiPrimaryAttrs (geminiFileBase id full meta now) meta } ::
      (splitGeminiProjectIDs meta).map
        (geminiVirtualOf (geminiFileBase id full meta now) meta now) := by
  have hnotle : ¬ (splitGeminiProjectIDs meta).length ≤ 1 := by omega
  have hnonnil : splitGeminiProjectIDs meta ≠ [] := by
    intro hnil
    rw [hnil] at h2
    simp at h2
  have hmapne : (splitGeminiProjectIDs meta).map
      (geminiVirtualOf (geminiFileBase id full meta now) meta now) ≠ [] := by
    simp only [ne_eq, List.map_eq_nil_iff]
    exact hnonnil
  unfold geminiFileAuths
  rw [htyp]
  dsimp only
  rw [if_pos rfl]
  rw [if_pos rfl]
  rw [synthesizeGeminiVirtualAuths_expand _ _ _ hnotle]
  dsimp only
  rw [if_pos hmapne]

end CLIProxy.Watcher

namespace CLIProxy.Watcher

/-- C7 (amended): a Gemini OAuth auth file whose `project_id` yields at least
two distinct non-empty project ids produces one disabled primary credential
plus one active virtual child per distinct project id; every child shares the
parent's refresh runtime (the very `SharedCred` the primary holds), carries
the parent's source/path attributes, and has id
`parentID ++ "::" ++ slug(projectID)`; the child ids are pairwise distinct
whenever the sanitized project slugs are pairwise distinct (which the
replacement of `/`, `\`, and spaces by `_` does not guarantee). -/
theorem gemini_virtual_auths_synthesis
    (id full : String) (meta : GeminiMeta) (now : Nat)
    (htyp : goToLower meta.typ = "gemini")
    (hfull : full ≠ "")
    (h2 : 2 ≤ (splitGeminiProjectIDs meta).length) :
    ∃ primary children shared,
      geminiFileAuths id full meta now = primary :: children ∧
      primary.status = AuthStatus.disabled ∧
      primary.disabled = true ∧
      primary.runtime = some (RuntimeVal.sharedC shared) ∧
      children.length = (splitGeminiProjectIDs meta).length ∧
      (∀ c ∈ children,
        c.status = AuthStatus.active ∧
        attrGet? c.attributes "source" = some full ∧
        attrGet? c.attributes "path" = some full ∧
        ∃ pid ∈ splitGeminiProjectIDs meta,
          c.id = buildGeminiVirtualID id pid ∧
          c.runtime = some (RuntimeVal.virtualC pid shared)) ∧
      (children.map (fun c => c.id) =
        (splitGeminiProjectIDs meta).map (buildGeminiVirtualID id)) ∧
      (((splitGeminiProjectIDs meta).map geminiProjectSlug).Nodup →
        (children.map (fun c => c.id)).Nodup) := by
  have hbattrs : (geminiFileBase id full meta now).attributes =
      [("source", full), ("path", full)] := rfl
  have hsource : attrGet (geminiPrimaryAttrs (geminiFileBase id full meta now) meta)
      "source" = full := by
    rw [geminiPrimaryAttrs, hbattrs]
    simp [attrSet, attrGet, List.find?]
  have hpath : attrGet (geminiPrimaryAttrs (geminiFileBase id full meta now) meta)
      "path" = full := by
    rw [geminiPrimaryAttrs, hbattrs]
    simp [attrSet, attrGet, List.find?]
  refine ⟨_, _, geminiSharedOf (geminiFileBase id full meta now) meta,
    geminiFileAuths_expand id full meta now htyp h2, rfl, rfl, rfl, by simp, ?_, ?_, ?_⟩
  · intro c hc
    obtain ⟨pid, hpid, hceq⟩ := List.mem_map.mp hc
    have hchattrs : (geminiVirtualOf (geminiFileBase id full meta now) meta now pid).attributes =
        [("runtime_only", "true"),
         ("gemini_virtual_parent", (geminiFileBase id full meta now).id),
         ("gemini_virtual_project", pid)] ++ [("source", full)] ++ [("path", full)] := by
      unfold geminiVirtualOf
      dsimp only
      rw [hsource, hpath, if_pos hfull, if_pos hfull]
    subst hceq
    refine ⟨rfl, ?_, ?_, pid, hpid, rfl, rfl⟩
    · rw [hchattrs]
      simp [attrGet?, List.find?]
    · rw [hchattrs]
      simp [attrGet?, List.find?]
  · simp only [List.map_map]
    rfl
  · intro hnd
    have h1 : (((splitGeminiProjectIDs meta).map
          (geminiVirtualOf (geminiFileBase id full meta now) meta now)).map (fun c => c.id)) =
        ((splitGeminiProjectIDs meta).map geminiProjectSlug).map (fun s => (id ++ "::") ++ s) := by
      simp only [List.map_map]
      rfl
    rw [h1]
    exact List.Nodup.map (fun s t hst => string_append_left_cancel (id ++ "::") hst) hnd

theorem gemini_virtual_auths_synthesis_witness :
    (geminiFileAuths "A" "/auth/g.json" twoProjectMeta 0).length = 3 ∧
    ((geminiFileAuths "A" "/auth/g.json" twoProjectMeta 0).head?.map (fun a => a.status)) =
      some AuthStatus.disabled := by
  obtain ⟨p, cs, sh, h1, hst, hdis, hrt, hlen, hall, hmap, hnd⟩ :=
    gemini_virtual_auths_synthesis "A" "/auth/g.json" twoProjectMeta 0
      (by decide) (by decide) (by decide)
  constructor
  · rw [h1]
    simp only [List.length_cons, hlen]
    decide
  · rw [h1]
    simp [hst]

/-- C7 counterexample: the auth file with `project_id = "a/b,a_b"` has two
distinct project ids, but the sanitizer maps both to slug `a_b`, so the two
virtual children receive the same id — refuting the claim that every child
has a distinct id. -/
theorem gemini_virtual_id_collision_counterexample :
    (splitGeminiProjectIDs collisionMeta).length = 2 ∧
    (geminiFileAuths "idX" "/auth/f.json" collisionMeta 0).map (fun a => a.id) =
      ["idX", "idX::a_b", "idX::a_b"] ∧
    ¬ ((geminiFileAuths "idX" "/auth/f.json" collisionMeta 0).map (fun a => a.id)).Nodup := by
  refine ⟨by decide, by decide, by decide⟩

end CLIProxy.Watcher

namespace CLIProxy.Watcher

/-- Unique-keys invariant of the watcher's auth maps. -/
def keysNodup (st : AuthState) : Prop :=
  (st.map Prod.fst).Nodup

lemma keysNodup_stateInsert (st : AuthState) (id : String) (a : WAuth)
    (h : keysNodup st) : keysNodup (stateInsert st id a) := by
  unfold stateInsert
  by_cases hin : st.any (fun p => p.fst == id)
  · rw [if_pos hin]
    unfold keysNodup at *
    have hkeys : (st.map (fun p => if p.fst == id then (id, a) else p)).map Prod.fst =
        st.map Prod.fst := by
      rw [List.map_map]
      apply List.map_congr_left
      intro p _
      by_cases hpid : p.fst = id
      · simp [Function.comp_def, hpid]
      · simp [Function.comp_def, hpid]
    rw [hkeys]
    exact h
  · rw [if_neg hin]
    unfold keysNodup at *
    rw [List.map_append]
    refine List.Nodup.append h (List.nodup_singleton id) ?_
    intro x hx hy
    simp only [List.map_cons, List.map_nil, List.mem_singleton] at hy
    subst hy
    obtain ⟨p, hp, hfst⟩ := List.mem_map.mp hx
    exact hin (List.any_eq_true.mpr ⟨p, hp, by simp [hfst]⟩)

lemma keysNodup_buildState (l : List WAuth) : keysNodup (buildState l) := by
  unfold buildState
  suffices h : ∀ st : AuthState, keysNodup st →
      keysNodup (l.foldl (fun st a => if a.id = "" then st else stateInsert st a.id a) st) by
    exact h [] (by simp [keysNodup])
  induction l with
  | nil => intro st h; exact h
  | cons x xs ih =>
    intro st h
    simp only [List.foldl_cons]
    apply ih
    by_cases hx : x.id = ""
    · rw [if_pos hx]; exact h
    · rw [if_neg hx]; exact keysNodup_stateInsert st x.id x h

lemma stateLookup_eq_of_mem {st : AuthState} (hnd : keysNodup st)
    {k : String} {v : WAuth} (hp : (k, v) ∈ st) : stateLookup st k = some v := by
  induction st with
  | nil => cases hp
  | cons q rest ih =>
    unfold keysNodup at hnd
    simp only [List.map_cons, List.nodup_cons] at hnd
    rcases List.mem_cons.mp hp with hq | hrest
    · rw [← hq]
      unfold stateLookup
      simp [List.find?]
    · by_cases hqp : q.fst == k
      · exfalso
        have hkmem : k ∈ rest.map Prod.fst := List.mem_map.mpr ⟨(k, v), hrest, rfl⟩
        rw [← beq_iff_eq.mp hqp] at hkmem
        exact hnd.1 hkmem
      · unfold stateLookup
        simp only [List.find?, hqp]
        exact ih hnd.2 hrest

lemma mem_of_stateLookup {st : AuthState} {k : String} {v : WAuth}
    (h : stateLookup st k = some v) : (k, v) ∈ st := by
  unfold stateLookup at h
  obtain ⟨p, hfind, hsnd⟩ := Option.map_eq_some'.mp h
  have hmem := List.mem_of_find?_eq_some hfind
  have hpred := (List.find?_eq_some.mp hfind).1
  simp only [beq_iff_eq] at hpred
  have hpk : p = (k, v) := by
    cases p
    simp only at hsnd hpred
    rw [hpred, hsnd]
  rw [← hpk]
  exact hmem

lemma prepareAuthUpdates_id_event {cur nxt : AuthState} {id : String} {a b : WAuth}
    (hndn : keysNodup nxt)
    (hc : stateLookup cur id = some a)
    (hn : stateLookup nxt id = some b)
    {u : AuthUpdate} (hu : u ∈ prepareAuthUpdates cur nxt) (hid : u.id = id) :
    authEqual a b = false ∧
      u = { action := .modify, id := id, auth := some b } := by
  unfold prepareAuthUpdates at hu
  rcases List.mem_append.mp hu with h1 | h2
  · obtain ⟨p, hp, hfp⟩ := List.mem_filterMap.mp h1
    cases hcl : stateLookup cur p.fst with
    | none =>
      rw [hcl] at hfp
      dsimp only at hfp
      cases hfp
      simp only at hid
      rw [hid] at hcl
      rw [hc] at hcl
      cases hcl
    | some existing =>
      rw [hcl] at hfp
      dsimp only at hfp
      by_cases heq : authEqual existing p.snd
      · rw [if_pos heq] at hfp
        cases hfp
      · rw [if_neg heq] at hfp
        cases hfp
        simp only at hid
        subst hid
        rw [hc] at hcl
        cases hcl
        have hsnd : p.snd = b := by
          have := stateLookup_eq_of_mem hndn (k := p.fst) (v := p.snd) (by
            cases p
            exact hp)
          rw [hn] at this
          cases this
          rfl
        rw [hsnd] at heq ⊢
        exact ⟨Bool.eq_false_iff.mpr heq, rfl⟩
  · obtain ⟨p, hp, hfp⟩ := List.mem_filterMap.mp h2
    by_cases hns : (stateLookup nxt p.fst).isSome
    · rw [if_pos hns] at hfp
      cases hfp
    · rw [if_neg hns] at hfp
      cases hfp
      simp only at hid
      rw [hid] at hns
      rw [hn] at hns
      simp at hns

lemma prepareAuthUpdates_modify_mem {cur nxt : AuthState} {id : String} {a b : WAuth}
    (hc : stateLookup cur id = some a)
    (hn : stateLookup nxt id = some b)
    (hne : authEqual a b = false) :
    ({ action := .modify, id := id, auth := some b } : AuthUpdate) ∈
      prepareAuthUpdates cur nxt := by
  unfold prepareAuthUpdates
  apply List.mem_append_left
  apply List.mem_filterMap.mpr
  refine ⟨(id, b), mem_of_stateLookup hn, ?_⟩
  simp only
  rw [hc]
  dsimp only
  rw [if_neg (by rw [hne]; exact Bool.false_ne_true)]

/-- C6: between two successive auth snapshots, for a credential id present in
both, the reconciler emits no event for that id iff the two credentials are
equal after `normalizeAuth` (clearing `created_at`, `updated_at`,
`last_refreshed_at`, `next_refresh_after`, `runtime`,
`quota.next_recover_at`); and it emits a Modify event for that id iff they
differ under that normalization. -/
theorem reconcile_modify_iff_normalized_unequal
    (prev next : List WAuth) (id : String) (a b : WAuth)
    (hc : stateLookup (buildState prev) id = some a)
    (hn : stateLookup (buildState next) id = some b) :
    ((∀ u ∈ prepareAuthUpdates (buildState prev) (buildState next), u.id ≠ id) ↔
      authEqual a b = true) ∧
    ((∃ u ∈ prepareAuthUpdates (buildState prev) (buildState next),
        u.id = id ∧ u.action = .modify ∧ u.auth = some b) ↔
      authEqual a b = false) := by
  have hndn := keysNodup_buildState next
  constructor
  · constructor
    · intro hno
      cases heq : authEqual a b with
      | true => rfl
      | false =>
        exfalso
        exact hno _ (prepareAuthUpdates_modify_mem hc hn heq) rfl
    · intro heq u hu hid
      have := (prepareAuthUpdates_id_event hndn hc hn hu hid).1
      rw [heq] at this
      cases this
  · constructor
    · intro ⟨u, hu, hid, _, _⟩
      exact (prepareAuthUpdates_id_event hndn hc hn hu hid).1
    · intro hne
      exact ⟨_, prepareAuthUpdates_modify_mem hc hn hne, rfl, rfl, rfl⟩

end CLIProxy.Watcher

namespace CLIProxy.Watcher

theorem reconcile_modify_iff_normalized_unequal_witness :
    stateLookup (buildState [authTsA]) "x" = some authTsA ∧
    authEqual authTsA authTsB = true ∧
    (prepareAuthUpdates (buildState [authTsA]) (buildState [authTsB])).all
      (fun u => u.id != "x") = true := by
  have h := reconcile_modify_iff_normalized_unequal [authTsA] [authTsB] "x" authTsA authTsB
    (by decide) (by decide)
  have hforall := h.1.mpr (by decide)
  refine ⟨by decide, by decide, ?_⟩
  apply List.all_eq_true.mpr
  intro u hu
  simpa using hforall u hu

end CLIProxy.Watcher

namespace CLIProxy.Responses

lemma str_append_assoc (a b c : String) : (a ++ b) ++ c = a ++ (b ++ c) := by
  cases a with
  | mk da =>
    cases b with
    | mk db =>
      cases c with
      | mk dc => exact congrArg String.mk (List.append_assoc da db dc)

lemma str_append_empty (a : String) : a ++ "" = a := by
  cases a with
  | mk da => exact congrArg String.mk (List.append_nil da)

lemma processPart_text_step (acc : PartAcc) (p : RPart) (ptype : String)
    (hpt : ptype = "input_text" ∨ ptype = "output_text")
    (hp : p.ptype = ptype) (txt : String) (htxt : p.text = some txt) :
    processPart acc p =
      { role := if ptype = "input_text" then "user" else "assistant"
        agg := acc.agg ++ txt
        blocks := acc.blocks ++ [CBlock.text txt]
        hasImage := acc.hasImage } := by
  unfold processPart
  rw [hp, if_pos hpt, htxt]

lemma foldl_processPart_uniform (ptype : String)
    (hpt : ptype = "input_text" ∨ ptype = "output_text") (parts : List RPart) :
    ∀ acc : PartAcc, (∀ p ∈ parts, p.ptype = ptype ∧ p.text.isSome) →
      parts.foldl processPart acc =
        { role := if parts = [] then acc.role
                  else if ptype = "input_text" then "user" else "assistant"
          agg := acc.agg ++ partsText parts
          blocks := acc.blocks ++ parts.map (fun p => CBlock.text (p.text.getD ""))
          hasImage := acc.hasImage } := by
  induction parts with
  | nil =>
    intro acc _
    simp [partsText, str_append_empty]
  | cons p ps ih =>
    intro acc hparts
    obtain ⟨hp, htxt⟩ := hparts p (List.mem_cons_self p ps)
    obtain ⟨txt, htxt'⟩ := Option.isSome_iff_exists.mp htxt
    rw [List.foldl_cons, processPart_text_step acc p ptype hpt hp txt htxt']
    rw [ih _ (fun q hq => hparts q (List.mem_cons_of_mem _ hq))]
    simp [partsText, htxt', PartAcc.mk.injEq, str_append_assoc]

lemma blocksText_map_text (parts : List RPart) :
    blocksText (parts.map (fun p => CBlock.text (p.text.getD ""))) = partsText parts := by
  induction parts with
  | nil => rfl
  | cons p ps ih => simp [blocksText, partsText, textOfBlock, ih]

end CLIProxy.Responses

namespace CLIProxy.Responses

lemma messageOfItem_uniform_text (it : InputItem) (ptype : String)
    (hpt : ptype = "input_text" ∨ ptype = "output_text")
    {parts : List RPart} (hc : it.content = some parts) (hne : parts ≠ [])
    (hparts : ∀ p ∈ parts, p.ptype = ptype ∧ p.text.isSome) :
    ∃ m, messageOfItem it = some m ∧
      m.role = (if ptype = "input_text" then "user" else "assistant") ∧
      contentText m.content = partsText parts := by
  have hfold := foldl_processPart_uniform ptype hpt parts
    { role := "", agg := "", blocks := [], hasImage := false } hparts
  have hRne : (if ptype = "input_text" then "user" else "assistant") ≠ "" := by
    by_cases h : ptype = "input_text" <;> simp [h]
  have hmapne : parts.map (fun p => CBlock.text (p.text.getD "")) ≠ [] := by
    simp only [ne_eq, List.map_eq_nil_iff]
    exact hne
  unfold messageOfItem
  rw [hc]
  simp only [Option.getD_some]
  rw [hfold]
  dsimp only
  rw [if_neg hne, if_neg hRne]
  simp only [List.nil_append]
  rw [if_pos hmapne]
  by_cases hlen : (parts.map (fun p => CBlock.text (p.text.getD ""))).length = 1
  · rw [if_pos ⟨hlen, trivial⟩]
    have hplen : parts.length = 1 := by simpa using hlen
    obtain ⟨p0, hp0⟩ := List.length_eq_one.mp hplen
    subst hp0
    refine ⟨_, rfl, rfl, ?_⟩
    simp [contentText, textOfBlock, partsText, str_append_empty]
  · rw [if_neg (fun h => hlen h.1)]
    refine ⟨_, rfl, rfl, ?_⟩
    simp [contentText, blocksText_map_text]

end CLIProxy.Responses
namespace CLIProxy.Responses

lemma convertItems_mem_of_emitted (validJson : String → Bool) (gen : Nat → String)
    {items : List InputItem} {it : InputItem} (hit : it ∈ items)
    {m : CMessage} (hm : emittedIndep validJson it = some m) :
    ∀ k, m ∈ convertItems validJson gen items k := by
  induction items with
  | nil => cases hit
  | cons x rest ih =>
    intro k
    rcases List.mem_cons.mp hit with rfl | hrest
    · unfold emittedIndep at hm
      rw [convertItems]
      by_cases hsys : eqFold it.role "system"
      · rw [if_pos hsys] at hm
        cases hm
      · rw [if_neg hsys] at hm
        rw [if_neg hsys]
        by_cases hmsg : itemType it = "message"
        · rw [if_pos hmsg] at hm ⊢
          rw [hm]
          exact List.mem_cons_self _ _
        · rw [if_neg hmsg] at hm ⊢
          by_cases hfc : itemType it = "function_call"
          · rw [if_pos hfc] at hm ⊢
            by_cases hcid : it.callId = ""
            · rw [if_pos hcid] at hm
              cases hm
            · rw [if_neg hcid] at hm
              cases hm
              rw [if_neg hcid]
              exact List.mem_cons_self _ _
          · rw [if_neg hfc] at hm ⊢
            by_cases hfo : itemType it = "function_call_output"
            · rw [if_pos hfo] at hm ⊢
              cases hm
              exact List.mem_cons_self _ _
            · rw [if_neg hfo] at hm
              cases hm
    · have hih := ih hrest
      rw [convertItems]
      by_cases hsys : eqFold x.role "system"
      · rw [if_pos hsys]
        exact hih k
      · rw [if_neg hsys]
        by_cases hmsg : itemType x = "message"
        · rw [if_pos hmsg]
          cases hmx : messageOfItem x with
          | some mx => exact List.mem_cons_of_mem _ (hih k)
          | none => exact hih k
        · rw [if_neg hmsg]
          by_cases hfc : itemType x = "function_call"
          · rw [if_pos hfc]
            by_cases hcid : x.callId = ""
            · rw [if_pos hcid]
              exact List.mem_cons_of_mem _ (hih (k + 1))
            · rw [if_neg hcid]
              exact List.mem_cons_of_mem _ (hih k)
          · rw [if_neg hfc]
            by_cases hfo : itemType x = "function_call_output"
            · rw [if_pos hfo]
              exact List.mem_cons_of_mem _ (hih k)
            · rw [if_neg hfo]
              exact hih k

lemma convertItems_mem_gen (validJson : String → Bool) (gen : Nat → String)
    {items : List InputItem} {it : InputItem} (hit : it ∈ items)
    (hsys : ¬ (eqFold it.role "system" = true))
    (hty : itemType it = "function_call") (hcid : it.callId = "") :
    ∀ k, ∃ j, toolUseMessage (genToolCallID gen j) it validJson ∈
      convertItems validJson gen items k := by
  have htym : ¬ itemType it = "message" := by
    rw [hty]
    decide
  induction items with
  | nil => cases hit
  | cons x rest ih =>
    intro k
    rcases List.mem_cons.mp hit with rfl | hrest
    · rw [convertItems, if_neg hsys, if_neg htym, if_pos hty, if_pos hcid]
      exact ⟨k, List.mem_cons_self _ _⟩
    · have hih := ih hrest
      rw [convertItems]
      by_cases hsx : eqFold x.role "system"
      · rw [if_pos hsx]
        exact hih k
      · rw [if_neg hsx]
        by_cases hmx : itemType x = "message"
        · rw [if_pos hmx]
          cases hmm : messageOfItem x with
          | some mx =>
            obtain ⟨j, hj⟩ := hih k
            exact ⟨j, List.mem_cons_of_mem _ hj⟩
          | none => exact hih k
        · rw [if_neg hmx]
          by_cases hfcx : itemType x = "function_call"
          · rw [if_pos hfcx]
            by_cases hcx : x.callId = ""
            · rw [if_pos hcx]
              obtain ⟨j, hj⟩ := hih (k + 1)
              exact ⟨j, List.mem_cons_of_mem _ hj⟩
            · rw [if_neg hcx]
              obtain ⟨j, hj⟩ := hih k
              exact ⟨j, List.mem_cons_of_mem _ hj⟩
          · rw [if_neg hfcx]
            by_cases hfo : itemType x = "function_call_output"
            · rw [if_pos hfo]
              obtain ⟨j, hj⟩ := hih k
              exact ⟨j, List.mem_cons_of_mem _ hj⟩
            · rw [if_neg hfo]
              exact hih k

end CLIProxy.Responses
namespace CLIProxy.Responses

lemma goHasPrefix_append (a b : String) : goHasPrefix (a ++ b) a := by
  unfold goHasPrefix
  have hd : (a ++ b).data = a.data ++ b.data := rfl
  rw [hd]
  exact List.isPrefixOf_iff_prefix.mpr (List.prefix_append _ _)

/-- C5: for every well-formed OpenAI Responses request, the produced Claude
Messages request sets `model` to the model argument, maps
`max_output_tokens` to `max_tokens`, lifts non-empty `instructions` and the
text parts of `input[]` system messages into the top-level `system` array,
turns message items with `input_text`/`output_text` parts into user/assistant
messages carrying their text, turns `function_call` items into assistant
`tool_use` blocks (with a generated `toolu_` id when `call_id` is absent),
turns `function_call_output` items into user `tool_result` blocks, and maps
`tools[].parameters` to `tools[].input_schema`. -/
theorem convert_responses_to_claude_spec
    (validJson : String → Bool) (gen : Nat → String) (userID modelName : String)
    (req : ResponsesRequest) (stream : Bool) :
    ∀ out, out = ConvertOpenAIResponsesRequestToClaude validJson gen userID modelName req stream →
    out.model = modelName ∧
    (∀ n : Int, req.maxOutputTokens = some n → out.maxTokens = n) ∧
    (∀ t, req.instructions = some t → t ≠ "" →
      (⟨t⟩ : CLIProxy.Claude.TextPart) ∈ out.system) ∧
    (∀ items, req.input = some items →
      (∀ it ∈ items, eqFold it.role "system" = true →
        ∀ parts, it.content = some parts →
          ∀ p ∈ parts, p.text.getD "" ≠ "" →
            (⟨p.text.getD ""⟩ : CLIProxy.Claude.TextPart) ∈ out.system) ∧
      (∀ it ∈ items, eqFold it.role "system" = false → itemType it = "function_call" →
        (it.callId ≠ "" →
          ∃ m ∈ out.messages, m.role = "assistant" ∧
            ∃ inp, m.content = CContent.blocks [CBlock.toolUse it.callId it.name inp]) ∧
        (it.callId = "" →
          ∃ m ∈ out.messages, m.role = "assistant" ∧
            ∃ cid inp, m.content = CContent.blocks [CBlock.toolUse cid it.name inp] ∧
              goHasPrefix cid "toolu_" = true)) ∧
      (∀ it ∈ items, eqFold it.role "system" = false →
        itemType it = "function_call_output" →
          ∃ m ∈ out.messages, m.role = "user" ∧
            m.content = CContent.blocks [CBlock.toolResult it.callId it.output]) ∧
      (∀ it ∈ items, eqFold it.role "system" = false → itemType it = "message" →
        ∀ parts, it.content = some parts → parts ≠ [] →
          ((∀ p ∈ parts, p.ptype = "input_text" ∧ p.text.isSome) →
            ∃ m ∈ out.messages, m.role = "user" ∧
              contentText m.content = partsText parts) ∧
          ((∀ p ∈ parts, p.ptype = "output_text" ∧ p.text.isSome) →
            ∃ m ∈ out.messages, m.role = "assistant" ∧
              contentText m.content = partsText parts))) ∧
    (∀ ts, req.tools = some ts → ∀ t ∈ ts, ∀ ps, t.parameters = some ps →
      (⟨t.name.getD "", t.description.getD "", ps⟩ : CTool) ∈ out.tools) := by
  intro out hout
  subst hout
  refine ⟨rfl, ?_, ?_, ?_, ?_⟩
  · intro n hn
    show (req.maxOutputTokens.getD 32000) = n
    rw [hn]
    rfl
  · intro t ht htne
    show (⟨t⟩ : CLIProxy.Claude.TextPart) ∈ systemPartsOfRequest req
    unfold systemPartsOfRequest
    rw [ht]
    dsimp only
    apply List.mem_append_left
    rw [if_pos htne]
    exact List.mem_singleton.mpr rfl
  · intro items hitems
    have hmsgs : (ConvertOpenAIResponsesRequestToClaude validJson gen userID modelName
        req stream).messages = convertItems validJson gen items 0 := by
      show (match req.input with
        | some items => convertItems validJson gen items 0
        | none => []) = _
      rw [hitems]
    refine ⟨?_, ?_, ?_, ?_⟩
    · intro it hit hsys parts hparts p hp htext
      show _ ∈ systemPartsOfRequest req
      unfold systemPartsOfRequest
      rw [hitems]
      apply List.mem_append_right
      dsimp only
      apply List.mem_flatMap.mpr
      refine ⟨it, hit, ?_⟩
      rw [if_pos hsys, hparts]
      dsimp only
      exact List.mem_filterMap.mpr ⟨p, hp, by simp [htext]⟩
    · intro it hit hsys hty
      have hsys' : ¬ (eqFold it.role "system" = true) := by simp [hsys]
      have htym : ¬ itemType it = "message" := by rw [hty]; decide
      constructor
      · intro hcid
        have hm : emittedIndep validJson it =
            some (toolUseMessage it.callId it validJson) := by
          unfold emittedIndep
          rw [if_neg hsys', if_neg htym, if_pos hty, if_neg hcid]
        have hin := convertItems_mem_of_emitted validJson gen hit hm 0
        rw [hmsgs]
        exact ⟨_, hin, rfl, _, rfl⟩
      · intro hcid
        obtain ⟨j, hj⟩ := convertItems_mem_gen validJson gen hit hsys' hty hcid 0
        rw [hmsgs]
        exact ⟨_, hj, rfl, genToolCallID gen j, _, rfl, goHasPrefix_append "toolu_" (gen j)⟩
    · intro it hit hsys hty
      have hsys' : ¬ (eqFold it.role "system" = true) := by simp [hsys]
      have htym : ¬ itemType it = "message" := by rw [hty]; decide
      have htyf : ¬ itemType it = "function_call" := by rw [hty]; decide
      have hm : emittedIndep validJson it = some (toolResultMessage it) := by
        unfold emittedIndep
        rw [if_neg hsys', if_neg htym, if_neg htyf, if_pos hty]
      have hin := convertItems_mem_of_emitted validJson gen hit hm 0
      rw [hmsgs]
      exact ⟨_, hin, rfl, rfl⟩
    · intro it hit hsys hty parts hparts hne
      have hsys' : ¬ (eqFold it.role "system" = true) := by simp [hsys]
      constructor
      · intro hall
        obtain ⟨m, hm, hrole, htext⟩ :=
          messageOfItem_uniform_text it "input_text" (Or.inl rfl) hparts hne hall
        have hmem : emittedIndep validJson it = some m := by
          unfold emittedIndep
          rw [if_neg hsys', if_pos hty]
          exact hm
        have hin := convertItems_mem_of_emitted validJson gen hit hmem 0
        rw [hmsgs]
        refine ⟨m, hin, ?_, htext⟩
        rw [hrole]
        simp
      · intro hall
        obtain ⟨m, hm, hrole, htext⟩ :=
          messageOfItem_uniform_text it "output_text" (Or.inr rfl) hparts hne hall
        have hmem : emittedIndep validJson it = some m := by
          unfold emittedIndep
          rw [if_neg hsys', if_pos hty]
          exact hm
        have hin := convertItems_mem_of_emitted validJson gen hit hmem 0
        rw [hmsgs]
        refine ⟨m, hin, ?_, htext⟩
        rw [hrole]
        simp
  · intro ts hts t ht ps hps
    show _ ∈ convertTools req.tools
    rw [hts]
    unfold convertTools
    apply List.mem_map.mpr
    refine ⟨t, ht, ?_⟩
    unfold convertTool
    rw [hps]

end CLIProxy.Responses

namespace CLIProxy.Responses

theorem convert_responses_to_claude_spec_witness :
    (ConvertOpenAIResponsesRequestToClaude (fun _ => true) (fun _ => "R") "u" "m"
        witnessReq false).model = "m" ∧
    (ConvertOpenAIResponsesRequestToClaude (fun _ => true) (fun _ => "R") "u" "m"
        witnessReq false).maxTokens = 512 ∧
    (⟨"be terse"⟩ : CLIProxy.Claude.TextPart) ∈
      (ConvertOpenAIResponsesRequestToClaude (fun _ => true) (fun _ => "R") "u" "m"
        witnessReq false).system ∧
    (⟨"search", "", "\x7b\x7d"⟩ : CTool) ∈
      (ConvertOpenAIResponsesRequestToClaude (fun _ => true) (fun _ => "R") "u" "m"
        witnessReq false).tools := by
  have h := convert_responses_to_claude_spec (fun _ => true) (fun _ => "R") "u" "m"
    witnessReq false _ rfl
  refine ⟨h.1, h.2.1 512 rfl, h.2.2.1 "be terse" rfl (by decide), ?_⟩
  exact h.2.2.2.2 [{ name := some "search", parameters := some "\x7b\x7d" }] rfl
    { name := some "search", parameters := some "\x7b\x7d" } (by decide) "\x7b\x7d" rfl

end CLIProxy.Responses
